import Mathlib

/-!
Shallow embedding of the Verilator test bench for the ZipCPU qspiflash
repository (`bench/cpp`): the generic Wishbone bus transactor
`WBFLASH_TB` from `wbflash_tb.h`, the flash command sequencer methods of
`SPIXPRESS_TB` from `spixpress_tb.cpp` and `dualflexpress_tb.cpp`, and the
scenario driver `main` of `spixpress_tb.cpp`.

The device under test is abstracted as a state machine supplying the
sampled outputs `o_wb_stall`, `o_wb_ack`, `o_wb_data`; the transactor
functions are transcribed from the C++ with the simulated clock advanced
by an explicit `tick`.  C `assert` failures are modelled by returning
`none`.  Machine integers are modelled by `Nat`; every value the code
masks is masked identically here.
-/

namespace Qspiflash

/-- From the source: `const int BOMBCOUNT = 2048` from `wbflash_tb.h`: the per-operation
tick budget of the bus transactor. -/
def BOMBCOUNT : Nat := 2048

/-- The Wishbone request signals driven into the DUT by the transactor:
`i_wb_cyc`, `i_wb_data_stb`, `i_wb_ctrl_stb`, `i_wb_we`, `i_wb_addr`,
`i_wb_data`.  They are member signals of the Verilated core and persist
between ticks exactly as the C++ assignments leave them. -/
structure WbIn where
  cyc : Bool
  dstb : Bool
  cstb : Bool
  we : Bool
  addr : Nat
  data : Nat
deriving Repr, DecidableEq

/-- The device under test, abstracted: a state type `σ`, a per-tick
transition on the currently driven inputs, and the sampled outputs
`o_wb_stall`, `o_wb_ack`, `o_wb_data`. -/
structure Dut (σ : Type) where
  step : σ → WbIn → σ
  stall : σ → Bool
  ack : σ → Bool
  rdata : σ → Nat

/-- The state of a `WBFLASH_TB` object: the DUT state, the currently
driven inputs, and the member fields `m_bomb` and `m_ack_expected`. -/
structure WbState (σ : Type) where
  dut : σ
  inp : WbIn
  m_bomb : Bool
  m_ack_expected : Bool

/-- From the source: `WBFLASH_TB::WBFLASH_TB()`: sets `m_bomb = false`,
`m_ack_expected = false`, and clears `i_wb_cyc`, `i_wb_data_stb`,
`i_wb_ctrl_stb`.  The fields `i_wb_we`, `i_wb_addr`, `i_wb_data` are
left uninitialised by the constructor and are therefore parameters. -/
def initWb {σ : Type} (dut : σ) (we0 : Bool) (addr0 data0 : Nat) : WbState σ :=
  { dut := dut
    inp := { cyc := false, dstb := false, cstb := false
             we := we0, addr := addr0, data := data0 }
    m_bomb := false
    m_ack_expected := false }

variable {σ : Type}

/-- From the source: `WBFLASH_TB::tick()`: advances the DUT one clock on the currently
driven inputs, then executes
`assert((i_wb_cyc)||(!o_wb_ack))`; an assertion failure is modelled as
`none`. -/
def tick (d : Dut σ) (s : WbState σ) : Option (WbState σ) :=
  if s.inp.cyc = true ∨ d.ack (d.step s.dut s.inp) = false then
    some { s with dut := d.step s.dut s.inp }
  else none

/-- The bounded stall wait loop
`while((errcount++ < BOMBCOUNT)&&(o_wb_stall)) TICK();`.
`e` is the shared `errcount`, post-incremented on every evaluation of
the loop condition, including the final failing one; the returned
number is its value after the loop.  `fuel` bounds the recursion; since
`e` grows by one per iteration, a fuel of `BOMBCOUNT + 1` can never be
exhausted. -/
def stallLoop (d : Dut σ) : Nat → WbState σ → Nat → Option (WbState σ × Nat)
  | 0, _, _ => none
  | fuel+1, s, e =>
    if e < BOMBCOUNT ∧ d.stall s.dut = true then
      match tick d s with
      | some s2 => stallLoop d fuel s2 (e+1)
      | none => none
    else
      some (s, e+1)

/-- The bounded acknowledge wait loop
`while((errcount++ < BOMBCOUNT)&&(!o_wb_ack)) TICK();`, with the same
`errcount` discipline as `stallLoop`. -/
def ackLoop (d : Dut σ) : Nat → WbState σ → Nat → Option (WbState σ × Nat)
  | 0, _, _ => none
  | fuel+1, s, e =>
    if e < BOMBCOUNT ∧ d.ack s.dut = false then
      match tick d s with
      | some s2 => ackLoop d fuel s2 (e+1)
      | none => none
    else
      some (s, e+1)

/-- The unbounded trailing stall drain `while(o_wb_stall) TICK();`.
The C++ loop has no budget, so the embedding carries explicit fuel and
returns `none` if the DUT stalls past it. -/
def drainStall (d : Dut σ) : Nat → WbState σ → Option (WbState σ)
  | 0, s => if d.stall s.dut = true then none else some s
  | fuel+1, s =>
    if d.stall s.dut = true then
      match tick d s with
      | some s2 => drainStall d fuel s2
      | none => none
    else some s

/-- The guarded initial stall wait of the single-word primitives:
`if (o_wb_stall) { while((errcount++ < BOMBCOUNT)&&(o_wb_stall)) TICK(); }`.
If there is no stall the budget counter is not touched. -/
def stallWait (d : Dut σ) (s : WbState σ) : Option (WbState σ × Nat) :=
  if d.stall s.dut = true then stallLoop d (BOMBCOUNT+1) s 0 else some (s, 0)

/-- Result of a single-word read primitive.  `postDut` is a ghost
observation: the DUT state immediately after the post-release tick, at
which the code executes `assert(!o_wb_ack)`.  `errFinal` is the final
value of `errcount`. -/
structure ReadOut (σ : Type) where
  result : Nat
  final : WbState σ
  postDut : σ
  errFinal : Nat

/-- From the source: `WBFLASH_TB::wb_read(unsigned a)` (single word, `wbflash_tb.h`
lines 121-173): drive `cyc`, `data_stb`, address `a>>2`; wait out any
initial stall (budgeted); tick once to register the request; drop the
strobes; wait for the acknowledge (same shared budget); capture
`o_wb_data`; release the bus; latch `m_bomb` if the budget was exceeded
(or, in the dead branch, if no acknowledge is pending); tick once and
`assert(!o_wb_ack)`; drain any trailing stall. -/
def wb_read (d : Dut σ) (s : WbState σ) (a : Nat) (drainFuel : Nat) :
    Option (ReadOut σ) :=
  let s1 := { s with inp := { cyc := true, dstb := true, cstb := false
                              we := false, addr := a >>> 2, data := s.inp.data } }
  (stallWait d s1).bind fun p1 =>
  (tick d p1.1).bind fun s2 =>
  let s3 := { s2 with inp := { s2.inp with dstb := false, cstb := false } }
  (ackLoop d (BOMBCOUNT+1) s3 p1.2).bind fun p2 =>
  let result := d.rdata p2.1.dut
  let s4 := { p2.1 with m_ack_expected := false }
  let s5 := { s4 with inp := { s4.inp with cyc := false, dstb := false, cstb := false } }
  let s6 := if BOMBCOUNT ≤ p2.2 then { s5 with m_bomb := true }
            else if d.ack s5.dut = false then { s5 with m_bomb := true }
            else s5
  (tick d s6).bind fun s7 =>
  if d.ack s7.dut = true then none
  else
  (drainStall d drainFuel s7).bind fun s8 =>
  some { result := result, final := s8, postDut := s7.dut, errFinal := p2.2 }

/-- From the source: `WBFLASH_TB::wb_ctrl_read(unsigned a)` (`wbflash_tb.h` lines
69-119): identical to the single-word `wb_read` but driving the control
strobe `i_wb_ctrl_stb` instead of the data strobe. -/
def wb_ctrl_read (d : Dut σ) (s : WbState σ) (a : Nat) (drainFuel : Nat) :
    Option (ReadOut σ) :=
  let s1 := { s with inp := { cyc := true, dstb := false, cstb := true
                              we := false, addr := a >>> 2, data := s.inp.data } }
  (stallWait d s1).bind fun p1 =>
  (tick d p1.1).bind fun s2 =>
  let s3 := { s2 with inp := { s2.inp with dstb := false, cstb := false } }
  (ackLoop d (BOMBCOUNT+1) s3 p1.2).bind fun p2 =>
  let result := d.rdata p2.1.dut
  let s4 := { p2.1 with m_ack_expected := false }
  let s5 := { s4 with inp := { s4.inp with cyc := false, dstb := false, cstb := false } }
  let s6 := if BOMBCOUNT ≤ p2.2 then { s5 with m_bomb := true }
            else if d.ack s5.dut = false then { s5 with m_bomb := true }
            else s5
  (tick d s6).bind fun s7 =>
  if d.ack s7.dut = true then none
  else
  (drainStall d drainFuel s7).bind fun s8 =>
  some { result := result, final := s8, postDut := s7.dut, errFinal := p2.2 }

/-- Result of a single-word write primitive, with the same ghost
observations as `ReadOut`. -/
structure WriteOut (σ : Type) where
  final : WbState σ
  postDut : σ
  errFinal : Nat

/-- From the source: `WBFLASH_TB::wb_write(unsigned a, unsigned v)` (`wbflash_tb.h`
lines 280-321): like the single read, with `i_wb_we` set and `v` driven
on `i_wb_data`; after the acknowledge loop the code ticks once more
with the bus still owned, releases it, latches `m_bomb` only on budget
exhaustion, ticks, asserts no acknowledge, drains the stall, and
finally `assert(!o_wb_stall)` (always true after the drain). -/
def wb_write (d : Dut σ) (s : WbState σ) (a v : Nat) (drainFuel : Nat) :
    Option (WriteOut σ) :=
  let s1 := { s with inp := { cyc := true, dstb := true, cstb := false
                              we := true, addr := a >>> 2, data := v } }
  (stallWait d s1).bind fun p1 =>
  (tick d p1.1).bind fun s2 =>
  let s3 := { s2 with inp := { s2.inp with dstb := false, cstb := false } }
  (ackLoop d (BOMBCOUNT+1) s3 p1.2).bind fun p2 =>
  (tick d p2.1).bind fun s4 =>
  let s5 := { s4 with inp := { s4.inp with cyc := false, dstb := false, cstb := false }
                      m_ack_expected := false }
  let s6 := if BOMBCOUNT ≤ p2.2 then { s5 with m_bomb := true } else s5
  (tick d s6).bind fun s7 =>
  if d.ack s7.dut = true then none
  else
  (drainStall d drainFuel s7).bind fun s8 =>
  if d.stall s8.dut = true then none
  else some { final := s8, postDut := s7.dut, errFinal := p2.2 }

/-- From the source: `WBFLASH_TB::wb_ctrl_write(unsigned a, unsigned v)` (`wbflash_tb.h`
lines 238-278): the control-strobe variant of the single write; it has
no final stall assertion after the drain. -/
def wb_ctrl_write (d : Dut σ) (s : WbState σ) (a v : Nat) (drainFuel : Nat) :
    Option (WriteOut σ) :=
  let s1 := { s with inp := { cyc := true, dstb := false, cstb := true
                              we := true, addr := a >>> 2, data := v } }
  (stallWait d s1).bind fun p1 =>
  (tick d p1.1).bind fun s2 =>
  let s3 := { s2 with inp := { s2.inp with cstb := false } }
  (ackLoop d (BOMBCOUNT+1) s3 p1.2).bind fun p2 =>
  (tick d p2.1).bind fun s4 =>
  let s5 := { s4 with inp := { s4.inp with cyc := false, cstb := false, dstb := false }
                      m_ack_expected := false }
  let s6 := if BOMBCOUNT ≤ p2.2 then { s5 with m_bomb := true } else s5
  (tick d s6).bind fun s7 =>
  if d.ack s7.dut = true then none
  else
  (drainStall d drainFuel s7).bind fun s8 =>
  some { final := s8, postDut := s7.dut, errFinal := p2.2 }

/-- Ghost record of one tick of the burst read: the stall value sampled
before the tick, the acknowledge and read data sampled after it, the
`i_wb_cyc` and `i_wb_data_stb` values driven during it, and the driven
address before and after the post-tick update. -/
structure RdTick where
  stalled : Bool
  acked : Bool
  word : Nat
  cyc : Bool
  dstb : Bool
  addrBefore : Nat
  addrAfter : Nat
deriving Repr, DecidableEq

/-- The posting `do` loop of the burst
`WBFLASH_TB::wb_read(a, len, buf, inc)` (`wbflash_tb.h` lines 204-212):

  `do { s = stall; TICK(); i_wb_addr += inc&(s^1); cnt += (s^1);`
  `     if (ack) buf[rdidx++] = o_wb_data; }`
  `while((cnt < len)&&(errcount++ < BOMBCOUNT*len));`

The accumulator carries the accepted-request count `cnt`, the shared
`errcount` `e`, the captured words `buf` in FIFO order, and the ghost
trace.  Note the source advances the address by `inc & (s^1)` where
`s^1` is the int 1 on a non-stalled tick, so the advance is by the low
bit of `inc`, not by `inc`. -/
def burstReadPost (d : Dut σ) (inc len : Nat) :
    Nat → WbState σ → Nat → Nat → List Nat → List RdTick →
    Option (WbState σ × Nat × Nat × List Nat × List RdTick)
  | 0, _, _, _, _, _ => none
  | fuel+1, s, cnt, e, buf, tr =>
    let st := d.stall s.dut
    match tick d s with
    | none => none
    | some s1 =>
      let a0 := s1.inp.addr
      let a1 := a0 + (inc &&& (if st = true then 0 else 1))
      let s2 := { s1 with inp := { s1.inp with addr := a1 } }
      let cnt2 := cnt + (if st = true then 0 else 1)
      let ak := d.ack s2.dut
      let w := d.rdata s2.dut
      let buf2 := if ak = true then buf ++ [w] else buf
      let tr2 := tr ++ [{ stalled := st, acked := ak, word := w
                          cyc := s2.inp.cyc, dstb := s2.inp.dstb
                          addrBefore := a0, addrAfter := a1 }]
      if cnt2 < len then
        if e < BOMBCOUNT * len then burstReadPost d inc len fuel s2 cnt2 (e+1) buf2 tr2
        else some (s2, cnt2, e+1, buf2, tr2)
      else some (s2, cnt2, e, buf2, tr2)

/-- The collection loop of the burst read (`wbflash_tb.h` lines
217-221): `while((rdidx < len)&&(errcount++ < BOMBCOUNT*len)) { TICK();`
`if (ack) buf[rdidx++] = o_wb_data; }`. -/
def burstReadCollect (d : Dut σ) (len : Nat) :
    Nat → WbState σ → Nat → List Nat → List RdTick →
    Option (WbState σ × Nat × List Nat × List RdTick)
  | 0, _, _, _, _ => none
  | fuel+1, s, e, buf, tr =>
    if buf.length < len then
      if e < BOMBCOUNT * len then
        match tick d s with
        | none => none
        | some s1 =>
          let ak := d.ack s1.dut
          let w := d.rdata s1.dut
          let buf2 := if ak = true then buf ++ [w] else buf
          let tr2 := tr ++ [{ stalled := d.stall s1.dut, acked := ak, word := w
                              cyc := s1.inp.cyc, dstb := s1.inp.dstb
                              addrBefore := s1.inp.addr, addrAfter := s1.inp.addr }]
          burstReadCollect d len fuel s1 (e+1) buf2 tr2
      else some (s, e+1, buf, tr)
    else some (s, e, buf, tr)

/-- Result of the burst read.  `mainTr` and `collTr` are the ghost
traces of the posting and collection loops, `errFinal` the final
`errcount`, `early` marks the early return taken when the initial stall
never clears, and `noAckEnd` is a ghost copy of the
`else if (!o_wb_ack)` condition evaluated at the final bomb check
(`false` on the early path). -/
structure BurstReadOut (σ : Type) where
  final : WbState σ
  buf : List Nat
  mainTr : List RdTick
  collTr : List RdTick
  errFinal : Nat
  early : Bool
  noAckEnd : Bool

/-- From the source: `WBFLASH_TB::wb_read(unsigned a, int len, unsigned *buf, const int inc)`
(`wbflash_tb.h` lines 175-236), the pipelined burst read: drive the
data strobe with the cycle line still low and wait out the initial
stall (budget `BOMBCOUNT`, early return latching `m_bomb` on
exhaustion); then assert cycle and strobe, post and collect with the
`do` loop; drop the strobes and collect the remaining acknowledges;
release the bus, latch `m_bomb` on budget exhaustion or on a missing
final acknowledge; tick once and `assert(!o_wb_ack)`. -/
def wb_read_burst (d : Dut σ) (s : WbState σ) (a len inc : Nat) :
    Option (BurstReadOut σ) :=
  let s1 := { s with inp := { s.inp with cyc := false, dstb := true, cstb := false } }
  (stallLoop d (BOMBCOUNT+1) s1 0).bind fun p1 =>
  if BOMBCOUNT ≤ p1.2 then
    some { final := { p1.1 with m_bomb := true }, buf := [], mainTr := [], collTr := []
           errFinal := p1.2, early := true, noAckEnd := false }
  else
  let s2 := { p1.1 with inp := { cyc := true, dstb := true, cstb := false
                                 we := false, addr := a >>> 2, data := p1.1.inp.data } }
  (burstReadPost d inc len (BOMBCOUNT*len+2) s2 0 0 [] []).bind fun q =>
  let s3 := { q.1 with inp := { q.1.inp with dstb := false, cstb := false } }
  (burstReadCollect d len (BOMBCOUNT*len+2) s3 q.2.2.1 q.2.2.2.1 []).bind fun r =>
  let s4 := { r.1 with inp := { r.1.inp with cyc := false }, m_ack_expected := false }
  let noAck := !d.ack s4.dut
  let s5 := if BOMBCOUNT*len ≤ r.2.1 then { s4 with m_bomb := true }
            else if noAck = true then { s4 with m_bomb := true }
            else s4
  (tick d s5).bind fun s6 =>
  if d.ack s6.dut = true then none
  else some { final := s6, buf := r.2.2.1, mainTr := q.2.2.2.2, collTr := r.2.2.2
              errFinal := r.2.1, early := false, noAckEnd := noAck }

/-- Ghost record of one tick of the burst write acknowledge-drain loop:
the driven `i_wb_cyc` and `i_wb_data_stb` during the tick, and the
acknowledge sampled after it. -/
structure WrTick where
  cyc : Bool
  dstb : Bool
  acked : Bool
deriving Repr, DecidableEq

/-- The per-word stall wait of the burst write (`wbflash_tb.h` lines
338-342): `while((errcount++ < BOMBCOUNT)&&(o_wb_stall)) { TICK();`
`if (ack) nacks++; }`, with `errcount` reset to zero for each word. -/
def burstWriteStallWait (d : Dut σ) :
    Nat → WbState σ → Nat → Nat → Option (WbState σ × Nat × Nat)
  | 0, _, _, _ => none
  | fuel+1, s, e, nacks =>
    if e < BOMBCOUNT ∧ d.stall s.dut = true then
      match tick d s with
      | none => none
      | some s1 =>
        burstWriteStallWait d fuel s1 (e+1)
          (nacks + (if d.ack s1.dut = true then 1 else 0))
    else some (s, e+1, nacks)

/-- The posting `for` loop of the burst write (`wbflash_tb.h` lines
333-350): for each word, drive it on `i_wb_data`, wait out the stall,
tick once to post it (counting any acknowledge seen), and advance the
address by `inc`. -/
def burstWritePost (d : Dut σ) (inc : Nat) :
    List Nat → WbState σ → Nat → Option (WbState σ × Nat)
  | [], s, nacks => some (s, nacks)
  | w :: ws, s, nacks =>
    let s1 := { s with inp := { s.inp with data := w } }
    (burstWriteStallWait d (BOMBCOUNT+1) s1 0 nacks).bind fun p =>
    (tick d p.1).bind fun s2 =>
    let nacks2 := p.2.2 + (if d.ack s2.dut = true then 1 else 0)
    let s3 := { s2 with inp := { s2.inp with addr := s2.inp.addr + inc } }
    burstWritePost d inc ws s3 nacks2

/-- The acknowledge-drain loop of the burst write (`wbflash_tb.h` lines
356-362): `while((nacks < ln)&&(errcount++ < BOMBCOUNT)) { TICK();`
`if (ack) { nacks++; errcount = 0; } }`, entered with the data strobe
driven high again (line 352). -/
def burstWriteDrain (d : Dut σ) (ln : Nat) :
    Nat → WbState σ → Nat → Nat → List WrTick →
    Option (WbState σ × Nat × Nat × List WrTick)
  | 0, _, _, _, _ => none
  | fuel+1, s, nacks, e, tr =>
    if nacks < ln then
      if e < BOMBCOUNT then
        match tick d s with
        | none => none
        | some s1 =>
          let ak := d.ack s1.dut
          let tr2 := tr ++ [{ cyc := s1.inp.cyc, dstb := s1.inp.dstb, acked := ak }]
          if ak = true then burstWriteDrain d ln fuel s1 (nacks+1) 0 tr2
          else burstWriteDrain d ln fuel s1 nacks (e+1) tr2
      else some (s, nacks, e+1, tr)
    else some (s, nacks, e, tr)

/-- Result of the burst write.  `drainTr` is the ghost trace of the
acknowledge-drain loop. -/
structure BurstWriteOut (σ : Type) where
  final : WbState σ
  nacks : Nat
  drainTr : List WrTick
  errFinal : Nat
  postDut : σ

/-- From the source: `WBFLASH_TB::wb_write(unsigned a, unsigned ln, unsigned *buf, const int inc)`
(`wbflash_tb.h` lines 323-379), the pipelined burst write: assert
cycle, data strobe and write enable; post each word of `buf`; set the
data strobe high again (line 352) and keep it high while draining the
outstanding acknowledges; release the bus; latch `m_bomb` on budget
exhaustion; tick once and `assert(!o_wb_ack)`; drain any trailing
stall. -/
def wb_write_burst (d : Dut σ) (s : WbState σ) (a : Nat) (buf : List Nat)
    (inc : Nat) (drainFuel : Nat) : Option (BurstWriteOut σ) :=
  let ln := buf.length
  let s1 := { s with inp := { cyc := true, dstb := true, cstb := false
                              we := true, addr := a >>> 2, data := s.inp.data } }
  (burstWritePost d inc buf s1 0).bind fun p =>
  let s2 := { p.1 with inp := { p.1.inp with dstb := true, cstb := false } }
  (burstWriteDrain d ln ((BOMBCOUNT+2)*(ln+1)) s2 p.2 0 []).bind fun q =>
  let s3 := { q.1 with inp := { q.1.inp with cyc := false, dstb := false, cstb := false }
                       m_ack_expected := false }
  let s4 := if BOMBCOUNT ≤ q.2.2.1 then { s3 with m_bomb := true } else s3
  (tick d s4).bind fun s5 =>
  if d.ack s5.dut = true then none
  else
  (drainStall d drainFuel s5).bind fun s6 =>
  some { final := s6, nacks := q.2.1, drainTr := q.2.2.2
         errFinal := q.2.2.1, postDut := s5.dut }

/-! ### The flash-specific testbench subclasses

`QSPIFLASH_TB` (`qspiflash_tb.cpp` lines 49-113), `SPIXPRESS_TB`
(`spixpress_tb.cpp` lines 87-235) and the dual-variant `SPIXPRESS_TB`
(`dualflexpress_tb.cpp` lines 91-288) each declare a private member
`bool m_bomb;` of their own.  That member shadows the public
`WBFLASH_TB::m_bomb`, is assigned by no constructor and no method, and
is what each subclass `bombed()` accessor returns. -/

/-- State of a flash testbench subclass object: the inherited
`WBFLASH_TB` state plus the shadow `m_bomb` member.  The shadow is
never initialised, so construction takes its indeterminate initial
value as a parameter. -/
structure FlashTb (σ : Type) where
  wb : WbState σ
  m_bomb : Bool

/-- Subclass construction: the `WBFLASH_TB` base constructor runs
(setting the inherited `m_bomb` to `false`); the shadow member is left
holding its indeterminate value `garbage`. -/
def mkFlashTb (dut : σ) (garbage : Bool) (we0 : Bool) (addr0 data0 : Nat) :
    FlashTb σ :=
  { wb := initWb dut we0 addr0 data0, m_bomb := garbage }

/-- From the source: `bombed()` as defined in each subclass
(`qspiflash_tb.cpp` line 111, `spixpress_tb.cpp` line 141,
`dualflexpress_tb.cpp` line 160): returns the subclass-local `m_bomb`,
not `WBFLASH_TB::m_bomb`. -/
def bombed (t : FlashTb σ) : Bool := t.m_bomb

/-- One bus-transactor primitive call, as issued by the scenario
driver through a subclass object. -/
inductive BusOp where
  | rd (a : Nat)
  | ctrlRd (a : Nat)
  | wr (a v : Nat)
  | ctrlWr (a v : Nat)
  | burstRd (a len inc : Nat)
  | burstWr (a : Nat) (buf : List Nat) (inc : Nat)

/-- Apply one primitive to the inherited transactor state, keeping the
subclass shadow member as the C++ methods do (none of them mentions
it).  `fuel` bounds the unbudgeted trailing stall drains. -/
def applyBusOp (d : Dut σ) (fuel : Nat) : BusOp → FlashTb σ → Option (FlashTb σ)
  | .rd a, t => (wb_read d t.wb a fuel).map fun o => { t with wb := o.final }
  | .ctrlRd a, t => (wb_ctrl_read d t.wb a fuel).map fun o => { t with wb := o.final }
  | .wr a v, t => (wb_write d t.wb a v fuel).map fun o => { t with wb := o.final }
  | .ctrlWr a v, t => (wb_ctrl_write d t.wb a v fuel).map fun o => { t with wb := o.final }
  | .burstRd a len inc, t => (wb_read_burst d t.wb a len inc).map fun o => { t with wb := o.final }
  | .burstWr a buf inc, t => (wb_write_burst d t.wb a buf inc fuel).map fun o => { t with wb := o.final }

/-- Run a sequence of primitives; an assert failure anywhere aborts the
run. -/
def runBusOps (d : Dut σ) (fuel : Nat) : List BusOp → FlashTb σ → Option (FlashTb σ)
  | [], t => some t
  | op :: ops, t => (applyBusOp d fuel op t).bind (runBusOps d fuel ops)

/-! ### The configuration port and the flash command sequencer

The sequencer methods `flreadid`, `flstatus`, `flwait`, `flerase`,
`flpage_program`, `flprogram` of `spixpress_tb.cpp` and
`dualflexpress_tb.cpp` talk to the controller through `cfg_write(v)`
and `cfg_read()`.  -/

/-- Modelled from the spec: the bodies of `cfg_write` and `cfg_read`
are not among the sources here (the subclasses call them but do not
define them); per spec section 4.1 they are the control-port variant of
the single-word bus write and read, with the identical handshake and
timeout discipline.  For the command-sequencing claims only the
sequence of words written and the values returned by reads matter, so
the port is modelled as an abstract machine: `wstep` is the state
effect of writing a word, `rvalue`/`rstep` the value and state effect
of a read. -/
structure CfgPort (τ : Type) where
  wstep : τ → Nat → τ
  rvalue : τ → Nat
  rstep : τ → τ

/-- Configuration-port session state: the machine state plus ghost
traces of every word written and every value read. -/
structure CfgSt (τ : Type) where
  port : τ
  writes : List Nat
  reads : List Nat

/-- From the source: `cfg_write(v)`: drive one word at the configuration port. -/
def cfg_write (c : CfgPort τ) (st : CfgSt τ) (v : Nat) : CfgSt τ :=
  { st with port := c.wstep st.port v, writes := st.writes ++ [v] }

/-- From the source: `cfg_read()`: sample one word from the configuration port. -/
def cfg_read (c : CfgPort τ) (st : CfgSt τ) : Nat × CfgSt τ :=
  (c.rvalue st.port, { st with port := c.rstep st.port, reads := st.reads ++ [c.rvalue st.port] })

/-- From the source: `CFG_USERMODE` (`spixpress_tb.cpp` line 68 and
`dualflexpress_tb.cpp` line 69). -/
def CFG_USERMODE : Nat := 0x1000

/-- From the source: `CFG_DSPEED` (`dualflexpress_tb.cpp` line 71). -/
def CFG_DSPEED : Nat := 0x0400

/-- From the source: `CFG_WEDIR` (`dualflexpress_tb.cpp` line 72). -/
def CFG_WEDIR : Nat := 0x0200

/-- From the source: `CFG_USER_CS_n` (`spixpress_tb.cpp` line 69). -/
def CFG_USER_CS_n : Nat := 0x0100

/-- From the source: `F_RESET = CFG_USERMODE|0x0ff`. -/
def F_RESET : Nat := CFG_USERMODE ||| 0x0ff

/-- From the source: `F_PP = CFG_USERMODE|0x002`. -/
def F_PP : Nat := CFG_USERMODE ||| 0x002

/-- From the source: `F_RDSR1 = CFG_USERMODE|0x005`; `F_RDSR = F_RDSR1`. -/
def F_RDSR : Nat := CFG_USERMODE ||| 0x005

/-- From the source: `F_WREN = CFG_USERMODE|0x006`. -/
def F_WREN : Nat := CFG_USERMODE ||| 0x006

/-- From the source: `F_MFRID = CFG_USERMODE|0x09f`; `F_READID = F_MFRID`. -/
def F_READID : Nat := CFG_USERMODE ||| 0x09f

/-- From the source: `F_SE = CFG_USERMODE|0x0d8`. -/
def F_SE : Nat := CFG_USERMODE ||| 0x0d8

/-- From the source: `F_END = CFG_USERMODE|CFG_USER_CS_n`. -/
def F_END : Nat := CFG_USERMODE ||| CFG_USER_CS_n

/-- The status poll `do { cfg_write(dummy); r = cfg_read(); } while (r & 1);`
shared by both variants of `flwait` (`spixpress_tb.cpp` lines 168-171
write the dummy word `0`, `dualflexpress_tb.cpp` lines 213-216 write
`CFG_USERMODE`).  The loop is unbounded in the source; `fuel` bounds
the number of polls and the result counts how many were performed. -/
def flwaitPoll (c : CfgPort τ) (dummy : Nat) :
    Nat → CfgSt τ → Option (CfgSt τ × Nat)
  | 0, _ => none
  | fuel+1, st =>
    let st1 := cfg_write c st dummy
    let p := cfg_read c st1
    if p.1 &&& 1 ≠ 0 then
      (flwaitPoll c dummy fuel p.2).map fun q => (q.1, q.2 + 1)
    else some (p.2, 1)

namespace Spix

/-- From the source: `SPIXPRESS_TB::flwait()` (`spixpress_tb.cpp` lines 163-174):
`cfg_write(F_RDSR)`, poll with dummy word `0` until the busy bit
clears, `cfg_write(F_END)`. -/
def flwait (c : CfgPort τ) (fuel : Nat) (st : CfgSt τ) : Option (CfgSt τ × Nat) :=
  let st1 := cfg_write c st F_RDSR
  (flwaitPoll c 0 fuel st1).map fun q => (cfg_write c q.1 F_END, q.2)

/-- From the source: `SPIXPRESS_TB::flerase(unsigned sectoraddr)` (`spixpress_tb.cpp`
lines 176-188): de-select, WREN, de-select, SE opcode, the three
address bytes most significant first, de-select, then `flwait()`.
There is no `take_offline`/`place_online` bracketing in this
variant. -/
def flerase (c : CfgPort τ) (fuel : Nat) (st : CfgSt τ) (sectoraddr : Nat) :
    Option (CfgSt τ) :=
  let st1 := cfg_write c st F_END
  let st2 := cfg_write c st1 F_WREN
  let st3 := cfg_write c st2 F_END
  let st4 := cfg_write c st3 F_SE
  let st5 := cfg_write c st4 ((sectoraddr >>> 16) &&& 0x0ff)
  let st6 := cfg_write c st5 ((sectoraddr >>> 8) &&& 0x0ff)
  let st7 := cfg_write c st6 (sectoraddr &&& 0x0ff)
  let st8 := cfg_write c st7 F_END
  (flwait c fuel st8).map fun q => q.1

/-- From the source: `SPIXPRESS_TB::flreadid()` (`spixpress_tb.cpp` lines 143-154):
READ-ID opcode, then four pairs of a dummy `cfg_write(0)` and a
`cfg_read()` whose low byte is shifted into the 32-bit result most
significant byte first, then a terminating de-select. -/
def flreadid (c : CfgPort τ) (st : CfgSt τ) : Nat × CfgSt τ :=
  let st1 := cfg_write c st F_READID
  let st2 := cfg_write c st1 0
  let p0 := cfg_read c st2
  let r0 := p0.1 &&& 0x0ff
  let st3 := cfg_write c p0.2 0
  let p1 := cfg_read c st3
  let r1 := (r0 <<< 8) ||| (p1.1 &&& 0x0ff)
  let st4 := cfg_write c p1.2 0
  let p2 := cfg_read c st4
  let r2 := (r1 <<< 8) ||| (p2.1 &&& 0x0ff)
  let st5 := cfg_write c p2.2 0
  let p3 := cfg_read c st5
  let r3 := (r2 <<< 8) ||| (p3.1 &&& 0x0ff)
  let st6 := cfg_write c p3.2 F_END
  (r3, st6)

end Spix

namespace Dualflex

/-- From the source: `SPIXPRESS_TB::take_offline()` (`dualflexpress_tb.cpp` lines
162-167): `cfg_write(F_END); cfg_write(F_RESET); cfg_write(F_RESET);`
`cfg_write(F_END);`. -/
def take_offline (c : CfgPort τ) (st : CfgSt τ) : CfgSt τ :=
  let st1 := cfg_write c st F_END
  let st2 := cfg_write c st1 F_RESET
  let st3 := cfg_write c st2 F_RESET
  cfg_write c st3 F_END

/-- From the source: `DUAL_IO_READ = CFG_USERMODE|0xbb` (`dualflexpress_tb.cpp` line
170). -/
def DUAL_IO_READ : Nat := CFG_USERMODE ||| 0xbb

/-- From the source: `SPIXPRESS_TB::place_online()` (`dualflexpress_tb.cpp` lines
169-182): the dual-I/O continuous-read entry frame: instruction, three
address bytes, mode byte `0xa0`, one dummy byte, close. -/
def place_online (c : CfgPort τ) (st : CfgSt τ) : CfgSt τ :=
  let st1 := cfg_write c st DUAL_IO_READ
  let st2 := cfg_write c st1 (CFG_USERMODE ||| CFG_DSPEED ||| CFG_WEDIR)
  let st3 := cfg_write c st2 (CFG_USERMODE ||| CFG_DSPEED ||| CFG_WEDIR)
  let st4 := cfg_write c st3 (CFG_USERMODE ||| CFG_DSPEED ||| CFG_WEDIR)
  let st5 := cfg_write c st4 (CFG_USERMODE ||| CFG_DSPEED ||| CFG_WEDIR ||| 0xa0)
  let st6 := cfg_write c st5 (CFG_USERMODE ||| CFG_DSPEED)
  cfg_write c st6 0

/-- From the source: `SPIXPRESS_TB::flwait()` (`dualflexpress_tb.cpp` lines 208-219):
as the single-SPI variant but with dummy word `CFG_USERMODE`. -/
def flwait (c : CfgPort τ) (fuel : Nat) (st : CfgSt τ) : Option (CfgSt τ × Nat) :=
  let st1 := cfg_write c st F_RDSR
  (flwaitPoll c CFG_USERMODE fuel st1).map fun q => (cfg_write c q.1 F_END, q.2)

/-- From the source: `SPIXPRESS_TB::flerase(unsigned sectoraddr)` (`dualflexpress_tb.cpp`
lines 221-237): `take_offline()`, then de-select, WREN, de-select, SE
opcode, the three address bytes most significant first (each ORed with
`CFG_USERMODE`), de-select, `flwait()`, and finally
`place_online()`. -/
def flerase (c : CfgPort τ) (fuel : Nat) (st : CfgSt τ) (sectoraddr : Nat) :
    Option (CfgSt τ) :=
  let st0 := take_offline c st
  let st1 := cfg_write c st0 F_END
  let st2 := cfg_write c st1 F_WREN
  let st3 := cfg_write c st2 F_END
  let st4 := cfg_write c st3 F_SE
  let st5 := cfg_write c st4 (CFG_USERMODE ||| ((sectoraddr >>> 16) &&& 0x0ff))
  let st6 := cfg_write c st5 (CFG_USERMODE ||| ((sectoraddr >>> 8) &&& 0x0ff))
  let st7 := cfg_write c st6 (CFG_USERMODE ||| (sectoraddr &&& 0x0ff))
  let st8 := cfg_write c st7 F_END
  (flwait c fuel st8).map fun q => place_online c q.1

/-- From the source: `SPIXPRESS_TB::flreadid()` (`dualflexpress_tb.cpp` lines 184-196):
as the single-SPI variant but with dummy word `CFG_USERMODE`. -/
def flreadid (c : CfgPort τ) (st : CfgSt τ) : Nat × CfgSt τ :=
  let st1 := cfg_write c st F_READID
  let st2 := cfg_write c st1 CFG_USERMODE
  let p0 := cfg_read c st2
  let r0 := p0.1 &&& 0x0ff
  let st3 := cfg_write c p0.2 CFG_USERMODE
  let p1 := cfg_read c st3
  let r1 := (r0 <<< 8) ||| (p1.1 &&& 0x0ff)
  let st4 := cfg_write c p1.2 CFG_USERMODE
  let p2 := cfg_read c st4
  let r2 := (r1 <<< 8) ||| (p2.1 &&& 0x0ff)
  let st5 := cfg_write c p2.2 CFG_USERMODE
  let p3 := cfg_read c st5
  let r3 := (r2 <<< 8) ||| (p3.1 &&& 0x0ff)
  let st6 := cfg_write c p3.2 F_END
  (r3, st6)

end Dualflex

/-! ### Page splitting in `flprogram` -/

/-- From the source: `SZPAGEB = 256`, `PGLENB = SZPAGEB` (`spixpress_tb.cpp` lines
56-57). -/
def PGLENB : Nat := 256

/-- From the source: `PAGEOF(A) = ((A)&(-1<<8))` (`spixpress_tb.cpp` line 66,
`dualflexpress_tb.cpp` line 67): for a nonnegative int the mask with
`-1<<8` clears the low eight bits, rounding down to the page base. -/
def PAGEOF (a : Nat) : Nat := a - a % 256

/-- The splitting loop of `SPIXPRESS_TB::flprogram(addr, ln, buf)`
(`spixpress_tb.cpp` lines 219-234 and `dualflexpress_tb.cpp` lines
268-287; the loop is identical in both variants):

  `while (start < addr + ln) {`
  `  if (PAGEOF(addr+ln-1) != PAGEOF(start)) wlen = PAGEOF(start+PGLENB)-start;`
  `  else wlen = addr+ln-start;`
  `  flpage_program(start, wlen, &buf[start-addr]);`
  `  start = PAGEOF(start+PGLENB); }`

The result is the list of `(start, wlen)` arguments passed to
`flpage_program`, in call order.  `fuel` bounds the recursion; since
each iteration covers at least one byte of the request, a fuel of `ln`
always suffices. -/
def flprogramLoop (addr ln : Nat) : Nat → Nat → List (Nat × Nat)
  | 0, _ => []
  | fuel+1, start =>
    if start < addr + ln then
      let wlen := if PAGEOF (addr + ln - 1) ≠ PAGEOF start
                  then PAGEOF (start + PGLENB) - start
                  else addr + ln - start
      (start, wlen) :: flprogramLoop addr ln fuel (PAGEOF (start + PGLENB))
    else []

/-- The `flpage_program` calls issued by `flprogram(addr, ln, buf)`:
the loop starts at `start = addr`. -/
def flprogramCalls (addr ln : Nat) : List (Nat × Nat) :=
  flprogramLoop addr ln ln addr

/-! ### The scenario driver of `spixpress_tb.cpp`

`main` (`spixpress_tb.cpp` lines 237-395) runs the fixed verification
script and ends either by printing `SUCCESS!!` and calling
`exit(EXIT_SUCCESS)`, or through the `test_failure` label, which prints
`FAIL-HERE`, drains eight ticks, prints `TEST FAILED` and calls
`exit(EXIT_FAILURE)`.  The scenario also contains C `assert` calls
(the status-register and device-id cross-checks and the `fread` length
check); a failing `assert` aborts the process without reaching either
exit path.  All values observed by the script (bus reads, flash model
words, the `bombed()` flag, the status and id registers) are supplied
by an environment record; the flash model is snapshotted per phase. -/

/-- From the source: `NPAGES = 256` (`spixpress_tb.cpp` line 55). -/
def NPAGES : Nat := 256

/-- From the source: `SZPAGEW = SZPAGEB>>2 = 64`. -/
def SZPAGEW : Nat := 64

/-- From the source: `SECTORSZB = NPAGES * SZPAGEB = 65536`. -/
def SECTORSZB : Nat := 65536

/-- From the source: `SECTORSZW = NPAGES * SZPAGEW = 16384`. -/
def SECTORSZW : Nat := 16384

/-- From the source: `EXIT_SUCCESS`. -/
def EXIT_SUCCESS : Nat := 0

/-- From the source: `EXIT_FAILURE`. -/
def EXIT_FAILURE : Nat := 1

/-- How a scenario run ends: a normal `exit` with the final lines it
printed, or a process abort from a failed C `assert` (which prints
neither final marker line). -/
inductive MainOutcome where
  | exited (lines : List String) (code : Nat)
  | aborted
deriving Repr, DecidableEq

/-- The `test_failure` path (`spixpress_tb.cpp` lines 389-394). -/
def failExit : MainOutcome :=
  MainOutcome.exited ["FAIL-HERE", "TEST FAILED"] EXIT_FAILURE

/-- The values the scenario script observes, in program order.  The
`bombed()` flag is a single constant because the subclass accessor
returns the never-written shadow member (see `bombed` above).  The
flash model is snapshotted: `flash0` during the read phases, `flash1`
after the erase, and `flashPage p i` at the check of page `p`;
`readw0`/`readw1` are the bus reads of those phases, `vbuf` the buffer
filled by the vector read, and `pageWord p i` the (byte-swapped)
reference word `i` of page `p`. -/
structure ScenarioEnv where
  read0 : Nat
  bombedVal : Bool
  flash0 : Nat → Nat
  readw0 : Nat → Nat
  vbuf : Nat → Nat
  status : Nat
  idreg : Nat
  devid : Nat
  flash1 : Nat → Nat
  readw1 : Nat → Nat
  read2 : Nat
  freadOk : Bool
  pageWord : Nat → Nat → Nat
  flashPage : Nat → Nat → Nat

/-- From the source: `main` of `spixpress_tb.cpp` (lines 237-395): the ordered check
script with its `goto test_failure` failure path and its `assert`
cross-checks. -/
def spixpressMain (env : ScenarioEnv) : MainOutcome :=
  if env.read0 ≠ 0 then failExit
  else if env.bombedVal = true then failExit
  else if (List.range 1000).any (fun i => env.flash0 i ≠ env.readw0 (i <<< 2)) then failExit
  else if env.bombedVal = true then failExit
  else if (List.range 1000).any (fun i => env.flash0 (i + 1000) ≠ env.vbuf i) then failExit
  else if env.bombedVal = true then failExit
  else if env.status ≠ 0x1c then MainOutcome.aborted
  else if env.idreg ≠ env.devid then MainOutcome.aborted
  else if (List.range SECTORSZW).any
            (fun k => env.flash1 ((SECTORSZB + 4*k) >>> 2) ≠ 0xffffffff) then failExit
  else if env.flash1 (SECTORSZW - 1) = 0xffffffff then failExit
  else if env.flash1 (2*SECTORSZB) = 0xffffffff then failExit
  else if env.readw1 (SECTORSZB - 4) ≠ env.flash1 (SECTORSZW - 1) then failExit
  else if env.readw1 (2*SECTORSZB) ≠ env.flash1 (2*SECTORSZW) then failExit
  else if env.read2 ≠ 0x12345678 then failExit
  else if env.freadOk = false then MainOutcome.aborted
  else if (List.range NPAGES).any (fun p => (List.range SZPAGEW).any
            (fun i => env.pageWord p i ≠ env.flashPage p i)) then failExit
  else MainOutcome.exited ["SUCCESS!!"] EXIT_SUCCESS

/-! ### Basic lemmas -/

/-- A successful tick only replaces the DUT state; inputs and member
fields are untouched. -/
theorem tick_eq_some {d : Dut σ} {s s2 : WbState σ} (h : tick d s = some s2) :
    s2 = { s with dut := d.step s.dut s.inp } := by
  unfold tick at h
  split at h
  · exact (Option.some_inj.mp h).symm
  · exact Option.noConfusion h

/-- A demonstration DUT used by the concrete witnesses: the state
counts ticks, there is never a stall, the acknowledge arrives exactly
on the tick singled out by `ackAt`, and the read data is constant. -/
def demoDut (ackAt : Nat → Bool) : Dut Nat :=
  { step := fun n _ => n + 1
    stall := fun _ => false
    ack := fun n => ackAt n
    rdata := fun _ => 42 }

/-! ### C1 -/

/-- C1: on every clock tick advanced by the bus transactor, if the DUT
acknowledge output `o_wb_ack` is asserted after the step then the
driven cycle input `i_wb_cyc` is asserted; an acknowledge observed
while cycle is deasserted makes `tick` fail its assertion (modelled as
`none`), which is fatal. -/
theorem C1_tick_ack_requires_cyc (d : Dut σ) (s : WbState σ) :
    (tick d s = none ↔
      (d.ack (d.step s.dut s.inp) = true ∧ s.inp.cyc = false)) ∧
    (∀ s2, tick d s = some s2 → d.ack s2.dut = true → s.inp.cyc = true) := by
  constructor
  · unfold tick
    split
    · rename_i hcond
      simp only [reduceCtorEq, false_iff]
      rcases hcond with hc | ha
      · rintro ⟨-, hcyc⟩; rw [hc] at hcyc; cases hcyc
      · rintro ⟨hack, -⟩; rw [ha] at hack; cases hack
    · rename_i hcond
      push_neg at hcond
      simp only [true_iff]
      exact ⟨Bool.ne_false_iff.mp hcond.2, Bool.eq_false_iff.mpr hcond.1⟩
  · intro s2 h hack
    have h2 := tick_eq_some h
    unfold tick at h
    split at h
    · rename_i hcond
      rcases hcond with hc | ha
      · exact hc
      · rw [h2] at hack
        simp only at hack
        rw [ha] at hack; cases hack
    · cases h

/-- State used by the C1 witness: cycle held, DUT counter at zero. -/
def demoS1 : WbState Nat :=
  { dut := 0
    inp := { cyc := true, dstb := true, cstb := false, we := false, addr := 0, data := 0 }
    m_bomb := false
    m_ack_expected := false }

/-- Witness for C1 at a concrete DUT that acknowledges on the first
tick: the tick succeeds, the acknowledge is asserted, and the theorem
yields that cycle was asserted. -/
theorem C1_witness :
    (tick (demoDut (fun n => n == 1)) demoS1 = none ↔
      ((demoDut (fun n => n == 1)).ack
          ((demoDut (fun n => n == 1)).step demoS1.dut demoS1.inp) = true ∧
        demoS1.inp.cyc = false)) ∧
    demoS1.inp.cyc = true :=
  ⟨(C1_tick_ack_requires_cyc (demoDut (fun n => n == 1)) demoS1).1,
   (C1_tick_ack_requires_cyc (demoDut (fun n => n == 1)) demoS1).2
     { demoS1 with dut := 1 } rfl rfl⟩

/-! ### C4 -/

/-- From the source: `PAGEOF` rounds down to the page base. -/
theorem PAGEOF_eq (a : Nat) : PAGEOF a = 256 * (a / 256) := by
  unfold PAGEOF; omega

/-- Once the cursor has passed the end of the request, the splitting
loop is empty at any fuel. -/
theorem flprogramLoop_nil (addr ln : Nat) :
    ∀ fuel start, ¬ start < addr + ln → flprogramLoop addr ln fuel start = [] := by
  intro fuel start h
  cases fuel with
  | zero => rfl
  | succ f => simp only [flprogramLoop, if_neg h]

/-- Full characterisation of the splitting loop, by induction on the
fuel: it emits one call per page of the remaining range, the calls are
in strictly ascending start order, every call covers between 1 and 256
bytes without leaving the page of its start, and the first call starts
at the cursor. -/
theorem flprogramLoop_spec (addr ln : Nat) :
    ∀ fuel start, addr ≤ start → start < addr + ln →
    (addr + ln - 1) / 256 - start / 256 + 1 ≤ fuel →
    (flprogramLoop addr ln fuel start).length
        = (addr + ln - 1) / 256 - start / 256 + 1 ∧
    List.Chain' (fun p q : Nat × Nat => p.1 < q.1) (flprogramLoop addr ln fuel start) ∧
    (∀ p ∈ flprogramLoop addr ln fuel start,
        1 ≤ p.2 ∧ p.2 ≤ 256 ∧ PAGEOF (p.1 + p.2 - 1) = PAGEOF p.1) ∧
    (∃ wlen rest, flprogramLoop addr ln fuel start = (start, wlen) :: rest) := by
  intro fuel
  induction fuel with
  | zero => intro start _ _ hfuel; omega
  | succ f ih =>
    intro start hal hlt hfuel
    have hP : PAGEOF (start + PGLENB) = start + 256 - start % 256 := by
      simp only [PAGEOF, PGLENB]; omega
    by_cases hpg : PAGEOF (addr + ln - 1) ≠ PAGEOF start
    · -- the range continues past the page of `start`: split at the page end
      have hpgd : (addr + ln - 1) / 256 ≠ start / 256 := by
        simp only [PAGEOF] at hpg; omega
      have hSlt : start / 256 < (addr + ln - 1) / 256 := by omega
      have hnext_lt : PAGEOF (start + PGLENB) < addr + ln := by rw [hP]; omega
      have hnext_ge : addr ≤ PAGEOF (start + PGLENB) := by rw [hP]; omega
      have hnextdiv : PAGEOF (start + PGLENB) / 256 = start / 256 + 1 := by
        rw [hP]; omega
      have hfuel2 : (addr + ln - 1) / 256 - PAGEOF (start + PGLENB) / 256 + 1 ≤ f := by
        rw [hnextdiv]; omega
      obtain ⟨ihlen, ihchain, ihmem, wlen2, rest2, ihhead⟩ :=
        ih (PAGEOF (start + PGLENB)) hnext_ge hnext_lt hfuel2
      simp only [flprogramLoop, if_pos hlt, if_pos hpg]
      refine ⟨?_, ?_, ?_, ?_⟩
      · simp only [List.length_cons, ihlen, hnextdiv]; omega
      · rw [List.chain'_cons']
        refine ⟨?_, ihchain⟩
        intro q hq
        rw [ihhead] at hq
        simp only [List.head?_cons, Option.mem_def, Option.some.injEq] at hq
        subst hq
        show start < PAGEOF (start + PGLENB)
        rw [hP]; omega
      · intro p hp
        rcases List.mem_cons.mp hp with hp | hp
        · subst hp
          refine ⟨by rw [hP]; omega, by rw [hP]; omega, ?_⟩
          show PAGEOF (start + (PAGEOF (start + PGLENB) - start) - 1) = PAGEOF start
          rw [hP]
          simp only [PAGEOF]
          omega
        · exact ihmem p hp
      · exact ⟨_, _, rfl⟩
    · -- the whole remaining range sits in the page of `start`
      push_neg at hpg
      have hpgd : (addr + ln - 1) / 256 = start / 256 := by
        simp only [PAGEOF] at hpg; omega
      have hstop : ¬ PAGEOF (start + PGLENB) < addr + ln := by rw [hP]; omega
      simp only [flprogramLoop, if_pos hlt, if_neg (not_not_intro hpg),
        flprogramLoop_nil addr ln f _ hstop]
      refine ⟨by simp [hpgd], by simp, ?_, ⟨_, _, rfl⟩⟩
      intro p hp
      simp only [List.mem_singleton] at hp
      subst hp
      refine ⟨by omega, by omega, ?_⟩
      show PAGEOF (start + (addr + ln - start) - 1) = PAGEOF start
      have heq : start + (addr + ln - start) - 1 = addr + ln - 1 := by omega
      rw [heq, hpg]

/-- C4: for every `addr` and every `ln ≥ 1`, the splitting loop of
`flprogram(addr, ln, buf)` issues exactly `K + 1` calls to
`flpage_program`, where
`K = (addr + ln - 1) / 256 - addr / 256` is the number of 256-byte page
boundaries spanned by `[addr, addr + ln)`; the calls are in strictly
ascending address order; each call programs between 1 and 256 bytes and
stays inside the page of its start address; and a request whose last
byte is the last byte of the page of `addr` (so that `addr + ln` is
page aligned but `addr + ln - 1` shares the page of `addr`) is not
split: it issues the single call `(addr, ln)`. -/
theorem C4_flprogram_page_split (addr ln : Nat) (h1 : 1 ≤ ln) :
    (flprogramCalls addr ln).length = ((addr + ln - 1) / 256 - addr / 256) + 1 ∧
    List.Chain' (fun p q : Nat × Nat => p.1 < q.1) (flprogramCalls addr ln) ∧
    (∀ p ∈ flprogramCalls addr ln,
        1 ≤ p.2 ∧ p.2 ≤ 256 ∧ PAGEOF (p.1 + p.2 - 1) = PAGEOF p.1) ∧
    ((addr + ln - 1) / 256 = addr / 256 → flprogramCalls addr ln = [(addr, ln)]) := by
  have hfuel : (addr + ln - 1) / 256 - addr / 256 + 1 ≤ ln := by omega
  obtain ⟨hlen, hchain, hmem, wlen, rest, hhead⟩ :=
    flprogramLoop_spec addr ln ln addr (Nat.le_refl addr) (by omega) hfuel
  refine ⟨hlen, hchain, hmem, ?_⟩
  intro hone
  have hpg : ¬ PAGEOF (addr + ln - 1) ≠ PAGEOF addr := by
    simp only [PAGEOF]; omega
  have hstop : ¬ PAGEOF (addr + PGLENB) < addr + ln := by
    simp only [PAGEOF, PGLENB]; omega
  unfold flprogramCalls
  cases ln with
  | zero => omega
  | succ n =>
    simp only [flprogramLoop, if_pos (show addr < addr + (n+1) by omega), if_neg hpg,
      flprogramLoop_nil addr (n+1) n _ hstop]
    simp

/-- Witness for C4: the request `addr = 300`, `ln = 500` spans the two
page boundaries at 512 and 768, and the theorem applies; its length
conclusion gives exactly three page-program calls. -/
theorem C4_witness :
    (flprogramCalls 300 500).length = ((300 + 500 - 1) / 256 - 300 / 256) + 1 ∧
    List.Chain' (fun p q : Nat × Nat => p.1 < q.1) (flprogramCalls 300 500) ∧
    (∀ p ∈ flprogramCalls 300 500,
        1 ≤ p.2 ∧ p.2 ≤ 256 ∧ PAGEOF (p.1 + p.2 - 1) = PAGEOF p.1) ∧
    ((300 + 500 - 1) / 256 = 300 / 256 → flprogramCalls 300 500 = [(300, 500)]) :=
  C4_flprogram_page_split 300 500 (by omega)

/-! ### Loop postcondition lemmas -/

/-- The stall wait loop only advances the DUT: the driven inputs and
the member fields are untouched, and `errcount` strictly grows. -/
theorem stallLoop_spec {d : Dut σ} :
    ∀ fuel (s : WbState σ) e p, stallLoop d fuel s e = some p →
      p.1.inp = s.inp ∧ p.1.m_bomb = s.m_bomb ∧
      p.1.m_ack_expected = s.m_ack_expected ∧ e < p.2 := by
  intro fuel
  induction fuel with
  | zero => intro s e p h; exact Option.noConfusion h
  | succ f ih =>
    intro s e p h
    unfold stallLoop at h
    split at h
    · cases htk : tick d s with
      | none => rw [htk] at h; exact Option.noConfusion h
      | some s2 =>
        rw [htk] at h
        obtain ⟨h1, h2, h3, h4⟩ := ih s2 (e+1) p h
        have hs2 := tick_eq_some htk
        subst hs2
        exact ⟨h1, h2, h3, by omega⟩
    · obtain rfl := Option.some_inj.mp h
      exact ⟨rfl, rfl, rfl, by omega⟩

/-- So does the guarded initial stall wait. -/
theorem stallWait_spec {d : Dut σ} {s : WbState σ} {p : WbState σ × Nat}
    (h : stallWait d s = some p) :
    p.1.inp = s.inp ∧ p.1.m_bomb = s.m_bomb ∧
    p.1.m_ack_expected = s.m_ack_expected := by
  unfold stallWait at h
  split at h
  · obtain ⟨h1, h2, h3, -⟩ := stallLoop_spec _ s 0 p h
    exact ⟨h1, h2, h3⟩
  · obtain rfl := Option.some_inj.mp h
    exact ⟨rfl, rfl, rfl⟩

/-- The acknowledge wait loop: inputs and members untouched,
`errcount` strictly grows, and if the final `errcount` is within the
budget then the loop exited because the acknowledge is asserted. -/
theorem ackLoop_spec {d : Dut σ} :
    ∀ fuel (s : WbState σ) e p, ackLoop d fuel s e = some p →
      p.1.inp = s.inp ∧ p.1.m_bomb = s.m_bomb ∧
      p.1.m_ack_expected = s.m_ack_expected ∧ e < p.2 ∧
      (p.2 ≤ BOMBCOUNT → d.ack p.1.dut = true) := by
  intro fuel
  induction fuel with
  | zero => intro s e p h; exact Option.noConfusion h
  | succ f ih =>
    intro s e p h
    unfold ackLoop at h
    split at h
    · cases htk : tick d s with
      | none => rw [htk] at h; exact Option.noConfusion h
      | some s2 =>
        rw [htk] at h
        obtain ⟨h1, h2, h3, h4, h5⟩ := ih s2 (e+1) p h
        have hs2 := tick_eq_some htk
        subst hs2
        exact ⟨h1, h2, h3, by omega, h5⟩
    · rename_i hcond
      obtain rfl := Option.some_inj.mp h
      refine ⟨rfl, rfl, rfl, by omega, ?_⟩
      intro hle
      rcases not_and_or.mp hcond with hc | hc
      · omega
      · exact Bool.ne_false_iff.mp hc

/-- The trailing stall drain: when it returns, the stall is clear, and
inputs and members are untouched. -/
theorem drainStall_spec {d : Dut σ} :
    ∀ fuel (s s2 : WbState σ), drainStall d fuel s = some s2 →
      d.stall s2.dut = false ∧ s2.inp = s.inp ∧ s2.m_bomb = s.m_bomb ∧
      s2.m_ack_expected = s.m_ack_expected := by
  intro fuel
  induction fuel with
  | zero =>
    intro s s2 h
    unfold drainStall at h
    split at h
    · exact Option.noConfusion h
    · rename_i hcond
      obtain rfl := Option.some_inj.mp h
      exact ⟨Bool.eq_false_iff.mpr hcond, rfl, rfl, rfl⟩
  | succ f ih =>
    intro s s2 h
    unfold drainStall at h
    split at h
    · cases htk : tick d s with
      | none => rw [htk] at h; exact Option.noConfusion h
      | some s1 =>
        rw [htk] at h
        obtain ⟨h1, h2, h3, h4⟩ := ih s1 s2 h
        have hs1 := tick_eq_some htk
        subst hs1
        exact ⟨h1, h2, h3, h4⟩
    · rename_i hcond
      obtain rfl := Option.some_inj.mp h
      exact ⟨Bool.eq_false_iff.mpr hcond, rfl, rfl, rfl⟩

/-! ### C7 -/

/-- C7: every single-word `wb_read` that returns (all its assertions
held) observed no acknowledge on the tick after it released cycle and
both strobes (`postDut` is the DUT state at that `assert(!o_wb_ack)`),
and it returns only after the trailing stall has been drained, with
cycle and both strobes still deasserted. -/
theorem C7_wb_read_post (d : Dut σ) (s : WbState σ) (a fuel : Nat)
    (out : ReadOut σ) (h : wb_read d s a fuel = some out) :
    d.ack out.postDut = false ∧
    d.stall out.final.dut = false ∧
    out.final.inp.cyc = false ∧
    out.final.inp.dstb = false ∧
    out.final.inp.cstb = false := by
  simp only [wb_read, Option.bind_eq_some] at h
  obtain ⟨p1, hp1, s2, hs2, p2, hp2, s7, hs7, hrest⟩ := h
  split at hrest
  · exact Option.noConfusion hrest
  · rename_i hack
    simp only [Option.bind_eq_some] at hrest
    obtain ⟨s8, hdrain, hout⟩ := hrest
    injection hout with hout2
    subst hout2
    obtain ⟨hst, hinp8, -, -⟩ := drainStall_spec _ s7 s8 hdrain
    have h7 := tick_eq_some hs7
    refine ⟨?_, ?_, ?_, ?_, ?_⟩
    · show d.ack s7.dut = false
      exact Bool.eq_false_iff.mpr hack
    · show d.stall s8.dut = false
      exact hst
    · show s8.inp.cyc = false
      rw [hinp8, h7]
      split
      · rfl
      · split <;> rfl
    · show s8.inp.dstb = false
      rw [hinp8, h7]
      split
      · rfl
      · split <;> rfl
    · show s8.inp.cstb = false
      rw [hinp8, h7]
      split
      · rfl
      · split <;> rfl


/-- The output of a concrete successful single-word read, used by the
C7 witness: the DUT acknowledges on the first tick after the request is
registered. -/
def demoRdOut : ReadOut Nat :=
  (wb_read (demoDut (fun n => n == 1)) (initWb 0 false 0 0) 0 4).getD
    { result := 0, final := initWb 0 false 0 0, postDut := 0, errFinal := 0 }

/-- Witness for C7 at the concrete DUT: the read completes and the
postconditions hold. -/
theorem C7_witness :
    wb_read (demoDut (fun n => n == 1)) (initWb 0 false 0 0) 0 4 = some demoRdOut ∧
    ((demoDut (fun n => n == 1)).ack demoRdOut.postDut = false ∧
     (demoDut (fun n => n == 1)).stall demoRdOut.final.dut = false ∧
     demoRdOut.final.inp.cyc = false ∧
     demoRdOut.final.inp.dstb = false ∧
     demoRdOut.final.inp.cstb = false) := by
  have h : wb_read (demoDut (fun n => n == 1)) (initWb 0 false 0 0) 0 4
      = some demoRdOut := by rfl
  exact ⟨h, C7_wb_read_post _ _ _ _ _ h⟩

/-! ### The bomb flag of the single-word primitives -/

/-- In the single-word `wb_read`, `m_bomb` is latched if and only if
the shared `errcount` budget was exhausted: the
`else if (!o_wb_ack)` branch is dead, because an in-budget exit of the
acknowledge loop implies the acknowledge is asserted. -/
theorem wb_read_bomb (d : Dut σ) (s : WbState σ) (a fuel : Nat)
    (out : ReadOut σ) (h : wb_read d s a fuel = some out) :
    out.final.m_bomb = (s.m_bomb || decide (BOMBCOUNT ≤ out.errFinal)) := by
  simp only [wb_read, Option.bind_eq_some] at h
  obtain ⟨p1, hp1, s2, hs2, p2, hp2, s7, hs7, hrest⟩ := h
  split at hrest
  · exact Option.noConfusion hrest
  · simp only [Option.bind_eq_some] at hrest
    obtain ⟨s8, hdrain, hout⟩ := hrest
    injection hout with hout2
    subst hout2
    obtain ⟨-, hb1, -⟩ := stallWait_spec hp1
    obtain ⟨-, hb2, -, -, hack2⟩ := ackLoop_spec _ _ _ _ hp2
    obtain ⟨-, -, hb3, -⟩ := drainStall_spec _ s7 s8 hdrain
    have h7 := tick_eq_some hs7
    have h2 := tick_eq_some hs2
    show s8.m_bomb = (s.m_bomb || decide (BOMBCOUNT ≤ p2.2))
    rw [hb3, h7]
    split
    · rename_i hB
      simp [hB]
    · rename_i hnB
      have hackT : d.ack p2.1.dut = true := hack2 (by omega)
      rw [if_neg (by simp only [hackT]; exact fun hc => Bool.noConfusion hc)]
      show p2.1.m_bomb = _
      rw [hb2]
      show s2.m_bomb = _
      rw [h2]
      show p1.1.m_bomb = _
      rw [hb1]
      show s.m_bomb = _
      simp [hnB]

/-- As `wb_read_bomb`, for the control-port read. -/
theorem wb_ctrl_read_bomb (d : Dut σ) (s : WbState σ) (a fuel : Nat)
    (out : ReadOut σ) (h : wb_ctrl_read d s a fuel = some out) :
    out.final.m_bomb = (s.m_bomb || decide (BOMBCOUNT ≤ out.errFinal)) := by
  simp only [wb_ctrl_read, Option.bind_eq_some] at h
  obtain ⟨p1, hp1, s2, hs2, p2, hp2, s7, hs7, hrest⟩ := h
  split at hrest
  · exact Option.noConfusion hrest
  · simp only [Option.bind_eq_some] at hrest
    obtain ⟨s8, hdrain, hout⟩ := hrest
    injection hout with hout2
    subst hout2
    obtain ⟨-, hb1, -⟩ := stallWait_spec hp1
    obtain ⟨-, hb2, -, -, hack2⟩ := ackLoop_spec _ _ _ _ hp2
    obtain ⟨-, -, hb3, -⟩ := drainStall_spec _ s7 s8 hdrain
    have h7 := tick_eq_some hs7
    have h2 := tick_eq_some hs2
    show s8.m_bomb = (s.m_bomb || decide (BOMBCOUNT ≤ p2.2))
    rw [hb3, h7]
    split
    · rename_i hB
      simp [hB]
    · rename_i hnB
      have hackT : d.ack p2.1.dut = true := hack2 (by omega)
      rw [if_neg (by simp only [hackT]; exact fun hc => Bool.noConfusion hc)]
      show p2.1.m_bomb = _
      rw [hb2]
      show s2.m_bomb = _
      rw [h2]
      show p1.1.m_bomb = _
      rw [hb1]
      show s.m_bomb = _
      simp [hnB]

/-- In the single-word `wb_write`, `m_bomb` is latched exactly on
budget exhaustion (this variant has no `else if` branch at all). -/
theorem wb_write_bomb (d : Dut σ) (s : WbState σ) (a v fuel : Nat)
    (out : WriteOut σ) (h : wb_write d s a v fuel = some out) :
    out.final.m_bomb = (s.m_bomb || decide (BOMBCOUNT ≤ out.errFinal)) := by
  simp only [wb_write, Option.bind_eq_some] at h
  obtain ⟨p1, hp1, s2, hs2, p2, hp2, s4, hs4, s7, hs7, hrest⟩ := h
  split at hrest
  · exact Option.noConfusion hrest
  · simp only [Option.bind_eq_some] at hrest
    obtain ⟨s8, hdrain, hout⟩ := hrest
    split at hout
    · exact Option.noConfusion hout
    · injection hout with hout2
      subst hout2
      obtain ⟨-, hb1, -⟩ := stallWait_spec hp1
      obtain ⟨-, hb2, -, -, -⟩ := ackLoop_spec _ _ _ _ hp2
      obtain ⟨-, -, hb3, -⟩ := drainStall_spec _ s7 s8 hdrain
      have h7 := tick_eq_some hs7
      have h4 := tick_eq_some hs4
      have h2 := tick_eq_some hs2
      show s8.m_bomb = (s.m_bomb || decide (BOMBCOUNT ≤ p2.2))
      rw [hb3, h7]
      split
      · rename_i hB
        simp [hB]
      · rename_i hnB
        show s4.m_bomb = _
        rw [h4]
        show p2.1.m_bomb = _
        rw [hb2]
        show s2.m_bomb = _
        rw [h2]
        show p1.1.m_bomb = _
        rw [hb1]
        show s.m_bomb = _
        simp [hnB]

/-- As `wb_write_bomb`, for the control-port write. -/
theorem wb_ctrl_write_bomb (d : Dut σ) (s : WbState σ) (a v fuel : Nat)
    (out : WriteOut σ) (h : wb_ctrl_write d s a v fuel = some out) :
    out.final.m_bomb = (s.m_bomb || decide (BOMBCOUNT ≤ out.errFinal)) := by
  simp only [wb_ctrl_write, Option.bind_eq_some] at h
  obtain ⟨p1, hp1, s2, hs2, p2, hp2, s4, hs4, s7, hs7, hrest⟩ := h
  split at hrest
  · exact Option.noConfusion hrest
  · simp only [Option.bind_eq_some] at hrest
    obtain ⟨s8, hdrain, hout⟩ := hrest
    injection hout with hout2
    subst hout2
    obtain ⟨-, hb1, -⟩ := stallWait_spec hp1
    obtain ⟨-, hb2, -, -, -⟩ := ackLoop_spec _ _ _ _ hp2
    obtain ⟨-, -, hb3, -⟩ := drainStall_spec _ s7 s8 hdrain
    have h7 := tick_eq_some hs7
    have h4 := tick_eq_some hs4
    have h2 := tick_eq_some hs2
    show s8.m_bomb = (s.m_bomb || decide (BOMBCOUNT ≤ p2.2))
    rw [hb3, h7]
    split
    · rename_i hB
      simp [hB]
    · rename_i hnB
      show s4.m_bomb = _
      rw [h4]
      show p2.1.m_bomb = _
      rw [hb2]
      show s2.m_bomb = _
      rw [h2]
      show p1.1.m_bomb = _
      rw [hb1]
      show s.m_bomb = _
      simp [hnB]

/-! ### The burst read loops -/

/-- The posting loop of the burst read: cycle and data strobe are
driven unchanged throughout, the member fields are untouched, every
acknowledged tick appends exactly its data word to the buffer in FIFO
order, and on every tick the driven address advances by `inc &&& 1`
exactly when the stall was clear. -/
theorem burstReadPost_spec {d : Dut σ} {inc len : Nat} :
    ∀ fuel (s : WbState σ) cnt e buf tr q,
      burstReadPost d inc len fuel s cnt e buf tr = some q →
      q.1.inp.cyc = s.inp.cyc ∧ q.1.inp.dstb = s.inp.dstb ∧
      q.1.m_bomb = s.m_bomb ∧ q.1.m_ack_expected = s.m_ack_expected ∧
      ∃ dl, q.2.2.2.2 = tr ++ dl ∧
        q.2.2.2.1 = buf ++ (dl.filter (fun t => t.acked)).map RdTick.word ∧
        ∀ t ∈ dl, t.cyc = s.inp.cyc ∧ t.dstb = s.inp.dstb ∧
          t.addrAfter = t.addrBefore + (if t.stalled = true then 0 else inc &&& 1) := by
  intro fuel
  induction fuel with
  | zero => intro s cnt e buf tr q h; exact Option.noConfusion h
  | succ f ih =>
    intro s cnt e buf tr q h
    unfold burstReadPost at h
    cases htk : tick d s with
    | none => simp only [htk] at h; exact Option.noConfusion h
    | some s1 =>
      simp only [htk] at h
      have h1 := tick_eq_some htk
      subst h1
      dsimp only at h
      generalize hg : (if d.stall s.dut = true then (0:Nat) else 1) = g at h
      generalize hak : d.ack (d.step s.dut s.inp) = ak at h
      generalize hb2 : (if ak = true then buf ++ [d.rdata (d.step s.dut s.inp)] else buf) = buf2 at h
      subst hb2
      have hent : ∀ tl : List RdTick,
          (∀ t ∈ tl, t.cyc = s.inp.cyc ∧ t.dstb = s.inp.dstb ∧
            t.addrAfter = t.addrBefore + (if t.stalled = true then 0 else inc &&& 1)) →
          ∀ t ∈ ({ stalled := d.stall s.dut, acked := ak,
                   word := d.rdata (d.step s.dut s.inp),
                   cyc := s.inp.cyc, dstb := s.inp.dstb, addrBefore := s.inp.addr,
                   addrAfter := s.inp.addr + (inc &&& g) } : RdTick) :: tl,
            t.cyc = s.inp.cyc ∧ t.dstb = s.inp.dstb ∧
            t.addrAfter = t.addrBefore + (if t.stalled = true then 0 else inc &&& 1) := by
        intro tl htl t ht
        rcases List.mem_cons.mp ht with ht | ht
        · subst ht
          refine ⟨rfl, rfl, ?_⟩
          show s.inp.addr + (inc &&& g)
              = s.inp.addr + (if d.stall s.dut = true then 0 else inc &&& 1)
          cases hstall : d.stall s.dut with
          | true => rw [hstall] at hg; simp at hg; subst hg; simp
          | false => rw [hstall] at hg; simp at hg; subst hg; simp
        · exact htl t ht
      have hbufe : ∀ rest : List Nat,
          (if ak = true then buf ++ [d.rdata (d.step s.dut s.inp)] else buf) ++ rest
            = buf ++ (if ak = true then d.rdata (d.step s.dut s.inp) :: rest else rest) := by
        intro rest
        cases ak <;> simp
      split at h
      · split at h
        · -- continue looping
          obtain ⟨hc, hd, hb, ha, dl, htr, hbuf, hdl⟩ := ih _ _ _ _ _ _ h
          refine ⟨hc, hd, hb, ha, _ :: dl, ?_, ?_, hent dl hdl⟩
          · rw [htr, List.append_assoc]
            rfl
          · rw [hbuf, hbufe]
            cases ak <;> simp [List.filter_cons]
        · -- budget exhausted: exit with the incremented errcount
          injection h with h
          subst h
          refine ⟨rfl, rfl, rfl, rfl, [_], rfl, ?_, hent [] (by intro t ht; cases ht)⟩
          have := hbufe []
          simp only [List.append_nil] at this
          rw [this]
          cases ak <;> simp [List.filter_cons]
      · -- all requests accepted: exit
        injection h with h
        subst h
        refine ⟨rfl, rfl, rfl, rfl, [_], rfl, ?_, hent [] (by intro t ht; cases ht)⟩
        have := hbufe []
        simp only [List.append_nil] at this
        rw [this]
        cases ak <;> simp [List.filter_cons]


theorem burstReadCollect_spec {d : Dut σ} {len : Nat} :
    ∀ fuel (s : WbState σ) e buf tr q,
      burstReadCollect d len fuel s e buf tr = some q →
      q.1.inp = s.inp ∧ q.1.m_bomb = s.m_bomb ∧ q.1.m_ack_expected = s.m_ack_expected ∧
      (len ≤ q.2.2.1.length ∨ BOMBCOUNT * len ≤ q.2.1) ∧
      ∃ dl, q.2.2.2 = tr ++ dl ∧
        q.2.2.1 = buf ++ (dl.filter (fun t => t.acked)).map RdTick.word ∧
        ∀ t ∈ dl, t.cyc = s.inp.cyc := by
  intro fuel
  induction fuel with
  | zero => intro s e buf tr q h; exact Option.noConfusion h
  | succ f ih =>
    intro s e buf tr q h
    unfold burstReadCollect at h
    split at h
    · split at h
      · cases htk : tick d s with
        | none => simp only [htk] at h; exact Option.noConfusion h
        | some s1 =>
          simp only [htk] at h
          have h1 := tick_eq_some htk
          subst h1
          dsimp only at h
          generalize hak : d.ack (d.step s.dut s.inp) = ak at h
          generalize hb2 : (if ak = true then buf ++ [d.rdata (d.step s.dut s.inp)] else buf) = buf2 at h
          subst hb2
          obtain ⟨hi, hb, ha, hex, dl, htr, hbuf, hdl⟩ := ih _ _ _ _ _ h
          refine ⟨hi, hb, ha, hex,
            ({ stalled := d.stall (d.step s.dut s.inp), acked := ak,
               word := d.rdata (d.step s.dut s.inp), cyc := s.inp.cyc,
               dstb := s.inp.dstb, addrBefore := s.inp.addr,
               addrAfter := s.inp.addr } : RdTick) :: dl, ?_, ?_, ?_⟩
          · rw [htr, List.append_assoc]
            rfl
          · rw [hbuf]
            cases ak <;> simp [List.filter_cons]
          · intro t ht
            rcases List.mem_cons.mp ht with ht | ht
            · subst ht; rfl
            · exact hdl t ht
      · rename_i hb hE
        injection h with h
        subst h
        exact ⟨rfl, rfl, rfl, Or.inr (show BOMBCOUNT * len ≤ e + 1 by omega), [],
          by simp, by simp, by intro t ht; cases ht⟩
    · rename_i hb
      injection h with h
      subst h
      exact ⟨rfl, rfl, rfl, Or.inl (show len ≤ buf.length by omega), [],
        by simp, by simp, by intro t ht; cases ht⟩



/-- C5 (amended): in the burst read `wb_read(a, len, buf, inc)`, once
the transfer proper starts, cycle is held asserted on every tick of the
posting and collection loops (the posting loop also holds the data
strobe); on every posting tick the driven address advances by
`inc &&& 1` exactly when the stall was clear (the source writes
`i_wb_addr += inc&(s^1)`, so for `inc = 1`, the only increment the
callers use, this is an advance by `inc`; the advance by a general
`inc` asserted by the original claim is refuted by the
counterexample); every tick on which the acknowledge is observed
appends exactly that tick data word to the buffer, in FIFO order; and
the transfer ends with either `len` words collected or the
`BOMBCOUNT * len` budget exhausted and `m_bomb` latched. -/
theorem C5_burst_read (d : Dut σ) (s : WbState σ) (a len inc : Nat)
    (out : BurstReadOut σ) (h : wb_read_burst d s a len inc = some out) :
    (∀ t ∈ out.mainTr, t.cyc = true ∧ t.dstb = true ∧
        t.addrAfter = t.addrBefore + (if t.stalled = true then 0 else inc &&& 1)) ∧
    (∀ t ∈ out.collTr, t.cyc = true) ∧
    out.buf = ((out.mainTr ++ out.collTr).filter (fun t => t.acked)).map RdTick.word ∧
    (len ≤ out.buf.length ∨ out.final.m_bomb = true) := by
  simp only [wb_read_burst, Option.bind_eq_some] at h
  obtain ⟨p1, hp1, hrest⟩ := h
  split at hrest
  · injection hrest with hrest
    subst hrest
    exact ⟨by simp, by simp, by simp, Or.inr rfl⟩
  · simp only [Option.bind_eq_some] at hrest
    obtain ⟨q, hq, r, hr, s6, h6, hout⟩ := hrest
    split at hout
    · exact Option.noConfusion hout
    · injection hout with hout
      subst hout
      obtain ⟨hc, hd, hb, ha, dl1, htr1, hbuf1, hdl1⟩ := burstReadPost_spec _ _ _ _ _ _ _ hq
      obtain ⟨hi2, hb2, ha2, hex2, dl2, htr2, hbuf2, hdl2⟩ := burstReadCollect_spec _ _ _ _ _ _ hr
      simp only [List.nil_append] at htr1 htr2 hbuf1 hbuf2
      have h6e := tick_eq_some h6
      refine ⟨?_, ?_, ?_, ?_⟩
      · intro t ht
        replace ht : t ∈ q.2.2.2.2 := ht
        rw [htr1] at ht
        exact hdl1 t ht
      · intro t ht
        replace ht : t ∈ r.2.2.2 := ht
        rw [htr2] at ht
        rw [hdl2 t ht]
        exact hc
      · show r.2.2.1 = ((q.2.2.2.2 ++ r.2.2.2).filter (fun t => t.acked)).map RdTick.word
        rw [hbuf2, hbuf1, htr1, htr2]
        simp [List.filter_append]
      · rcases hex2 with hlen | hTB
        · exact Or.inl hlen
        · refine Or.inr ?_
          show s6.m_bomb = true
          rw [h6e]
          rw [if_pos hTB]


/-- The bomb flag of the burst read: latched on the early stall timeout,
on exhaustion of the length-scaled budget, or on the
`NO ACK, NO TIMEOUT` branch recorded in `noAckEnd`. -/
theorem wb_read_burst_bomb (d : Dut σ) (s : WbState σ) (a len inc : Nat)
    (out : BurstReadOut σ) (h : wb_read_burst d s a len inc = some out) :
    out.final.m_bomb =
      (s.m_bomb ||
       decide ((if out.early = true then BOMBCOUNT else BOMBCOUNT * len) ≤ out.errFinal) ||
       out.noAckEnd) := by
  simp only [wb_read_burst, Option.bind_eq_some] at h
  obtain ⟨p1, hp1, hrest⟩ := h
  obtain ⟨-, hbp1, -, -⟩ := stallLoop_spec _ _ _ _ hp1
  split at hrest
  · rename_i hB
    injection hrest with hrest
    subst hrest
    simp [hB]
  · simp only [Option.bind_eq_some] at hrest
    obtain ⟨q, hq, r, hr, s6, h6, hout⟩ := hrest
    split at hout
    · exact Option.noConfusion hout
    · injection hout with hout
      subst hout
      obtain ⟨-, -, hbq, -, -⟩ := burstReadPost_spec _ _ _ _ _ _ _ hq
      obtain ⟨-, hbr, -, -, -⟩ := burstReadCollect_spec _ _ _ _ _ _ hr
      have h6e := tick_eq_some h6
      show s6.m_bomb = _
      rw [h6e]
      split
      · rename_i hTB
        simp [hTB]
      · rename_i hTB
        split
        · rename_i hNA
          rw [hNA]
          simp
        · rename_i hNA
          have hna := Bool.eq_false_iff.mpr hNA
          rw [hna]
          show r.1.m_bomb = _
          rw [hbr]
          show q.1.m_bomb = _
          rw [hbq]
          show p1.1.m_bomb = _
          rw [hbp1]
          show s.m_bomb = _
          simp [hTB]

/-- The per-word stall wait of the burst write leaves inputs and
members untouched. -/
theorem burstWriteStallWait_spec {d : Dut σ} :
    ∀ fuel (s : WbState σ) e nacks p, burstWriteStallWait d fuel s e nacks = some p →
      p.1.inp = s.inp ∧ p.1.m_bomb = s.m_bomb ∧ p.1.m_ack_expected = s.m_ack_expected := by
  intro fuel
  induction fuel with
  | zero => intro s e nacks p h; exact Option.noConfusion h
  | succ f ih =>
    intro s e nacks p h
    unfold burstWriteStallWait at h
    split at h
    · cases htk : tick d s with
      | none => rw [htk] at h; exact Option.noConfusion h
      | some s1 =>
        rw [htk] at h
        obtain ⟨h1, h2, h3⟩ := ih _ _ _ _ h
        have hs1 := tick_eq_some htk
        subst hs1
        exact ⟨h1, h2, h3⟩
    · obtain rfl := Option.some_inj.mp h
      exact ⟨rfl, rfl, rfl⟩

/-- The posting loop of the burst write drives neither strobe nor
cycle changes: only address and data move; members are untouched. -/
theorem burstWritePost_spec {d : Dut σ} {inc : Nat} :
    ∀ (ws : List Nat) (s : WbState σ) nacks p, burstWritePost d inc ws s nacks = some p →
      p.1.inp.cyc = s.inp.cyc ∧ p.1.inp.dstb = s.inp.dstb ∧ p.1.inp.cstb = s.inp.cstb ∧
      p.1.m_bomb = s.m_bomb ∧ p.1.m_ack_expected = s.m_ack_expected := by
  intro ws
  induction ws with
  | nil =>
    intro s nacks p h
    obtain rfl := Option.some_inj.mp h
    exact ⟨rfl, rfl, rfl, rfl, rfl⟩
  | cons w ws ih =>
    intro s nacks p h
    simp only [burstWritePost, Option.bind_eq_some] at h
    obtain ⟨p1, hp1, s2, hs2, h⟩ := h
    obtain ⟨hi1, hb1, ha1⟩ := burstWriteStallWait_spec _ _ _ _ _ hp1
    have h2 := tick_eq_some hs2
    subst h2
    obtain ⟨hc, hd, hcs, hb, ha⟩ := ih _ _ _ h
    rw [hi1] at hc hd hcs
    rw [hb1] at hb
    rw [ha1] at ha
    exact ⟨hc, hd, hcs, hb, ha⟩

/-- The acknowledge-drain loop of the burst write: every tick in its
trace is driven with the cycle and data-strobe values held at loop
entry; inputs and members are untouched. -/
theorem burstWriteDrain_spec {d : Dut σ} {ln : Nat} :
    ∀ fuel (s : WbState σ) nacks e tr q, burstWriteDrain d ln fuel s nacks e tr = some q →
      q.1.inp = s.inp ∧ q.1.m_bomb = s.m_bomb ∧ q.1.m_ack_expected = s.m_ack_expected ∧
      ∃ dl, q.2.2.2 = tr ++ dl ∧ ∀ t ∈ dl, t.cyc = s.inp.cyc ∧ t.dstb = s.inp.dstb := by
  intro fuel
  induction fuel with
  | zero => intro s nacks e tr q h; exact Option.noConfusion h
  | succ f ih =>
    intro s nacks e tr q h
    unfold burstWriteDrain at h
    split at h
    · split at h
      · cases htk : tick d s with
        | none => simp only [htk] at h; exact Option.noConfusion h
        | some s1 =>
          simp only [htk] at h
          have h1 := tick_eq_some htk
          subst h1
          dsimp only at h
          generalize hak : d.ack (d.step s.dut s.inp) = ak at h
          split at h
          · obtain ⟨hi, hb, ha, dl, htr, hdl⟩ := ih _ _ _ _ _ h
            refine ⟨hi, hb, ha,
              ({ cyc := s.inp.cyc, dstb := s.inp.dstb, acked := ak } : WrTick) :: dl, ?_, ?_⟩
            · rw [htr, List.append_assoc]
              rfl
            · intro t ht
              rcases List.mem_cons.mp ht with ht | ht
              · subst ht; exact ⟨rfl, rfl⟩
              · exact hdl t ht
          · obtain ⟨hi, hb, ha, dl, htr, hdl⟩ := ih _ _ _ _ _ h
            refine ⟨hi, hb, ha,
              ({ cyc := s.inp.cyc, dstb := s.inp.dstb, acked := ak } : WrTick) :: dl, ?_, ?_⟩
            · rw [htr, List.append_assoc]
              rfl
            · intro t ht
              rcases List.mem_cons.mp ht with ht | ht
              · subst ht; exact ⟨rfl, rfl⟩
              · exact hdl t ht
      · rename_i hn hE
        injection h with h
        subst h
        exact ⟨rfl, rfl, rfl, [], by simp, by intro t ht; cases ht⟩
    · rename_i hn
      injection h with h
      subst h
      exact ⟨rfl, rfl, rfl, [], by simp, by intro t ht; cases ht⟩



/-- C10: in the burst write, after all posted words, the
acknowledge-drain loop runs with the data strobe re-asserted (line 352)
and the cycle line still held: every tick of the drain trace presents
both `i_wb_cyc` and `i_wb_data_stb` to the DUT, strobes beyond the
posted words. -/
theorem C10_burst_write_drain_strobe (d : Dut σ) (s : WbState σ) (a : Nat)
    (buf : List Nat) (inc fuel : Nat) (out : BurstWriteOut σ)
    (h : wb_write_burst d s a buf inc fuel = some out) :
    ∀ t ∈ out.drainTr, t.cyc = true ∧ t.dstb = true := by
  simp only [wb_write_burst, Option.bind_eq_some] at h
  obtain ⟨p, hp, q, hq, s5, h5, hrest⟩ := h
  split at hrest
  · exact Option.noConfusion hrest
  · simp only [Option.bind_eq_some] at hrest
    obtain ⟨s6, hdrain, hout⟩ := hrest
    injection hout with hout
    subst hout
    obtain ⟨hc, -, -, -, -⟩ := burstWritePost_spec _ _ _ _ hp
    obtain ⟨-, -, -, dl, htr, hdl⟩ := burstWriteDrain_spec _ _ _ _ _ _ hq
    simp only [List.nil_append] at htr
    intro t ht
    replace ht : t ∈ q.2.2.2 := ht
    rw [htr] at ht
    obtain ⟨htc, htd⟩ := hdl t ht
    constructor
    · rw [htc]
      exact hc
    · exact htd

/-- The bomb flag of the burst write: latched exactly on exhaustion of
the (ack-resettable) drain budget. -/
theorem wb_write_burst_bomb (d : Dut σ) (s : WbState σ) (a : Nat)
    (buf : List Nat) (inc fuel : Nat) (out : BurstWriteOut σ)
    (h : wb_write_burst d s a buf inc fuel = some out) :
    out.final.m_bomb = (s.m_bomb || decide (BOMBCOUNT ≤ out.errFinal)) := by
  simp only [wb_write_burst, Option.bind_eq_some] at h
  obtain ⟨p, hp, q, hq, s5, h5, hrest⟩ := h
  split at hrest
  · exact Option.noConfusion hrest
  · simp only [Option.bind_eq_some] at hrest
    obtain ⟨s6, hdrain, hout⟩ := hrest
    injection hout with hout
    subst hout
    obtain ⟨-, -, -, hbp, -⟩ := burstWritePost_spec _ _ _ _ hp
    obtain ⟨-, hbq, -, -⟩ := burstWriteDrain_spec _ _ _ _ _ _ hq
    obtain ⟨-, -, hb6, -⟩ := drainStall_spec _ s5 s6 hdrain
    have h5e := tick_eq_some h5
    show s6.m_bomb = _
    rw [hb6, h5e]
    split
    · rename_i hB
      simp [hB]
    · rename_i hB
      show q.1.m_bomb = _
      rw [hbq]
      show p.1.m_bomb = _
      rw [hbp]
      show s.m_bomb = _
      simp [hB]


/-- Output of a concrete successful burst read with `inc = 2`, used by
the C5 counterexample and witness: one word, never stalled,
acknowledged immediately. -/
def demoBurstOut : BurstReadOut Nat :=
  (wb_read_burst (demoDut (fun n => n == 1)) (initWb 0 false 0 0) 0 1 2).getD
    { final := initWb 0 false 0 0, buf := [], mainTr := [], collTr := []
      errFinal := 0, early := true, noAckEnd := false }

/-- Counterexample to C5 as stated: with `inc = 2` the single posting
tick of this concrete burst read is not stalled, yet the driven address
advances by `2 &&& 1 = 0`, not by `inc = 2`: the source advances the
address by `inc&(s^1)`, the low bit of `inc`, on non-stalled ticks. -/
theorem C5_counterexample :
    (demoBurstOut.mainTr.map fun t => (t.stalled, t.addrBefore, t.addrAfter))
        = [(false, 0, 0)] ∧
    ¬ (0 : Nat) = 0 + 2 :=
  ⟨rfl, by decide⟩

/-- Witness for C5 at the concrete burst read. -/
theorem C5_witness :
    wb_read_burst (demoDut (fun n => n == 1)) (initWb 0 false 0 0) 0 1 2
        = some demoBurstOut ∧
    ((∀ t ∈ demoBurstOut.mainTr, t.cyc = true ∧ t.dstb = true ∧
        t.addrAfter = t.addrBefore + (if t.stalled = true then 0 else 2 &&& 1)) ∧
     (∀ t ∈ demoBurstOut.collTr, t.cyc = true) ∧
     demoBurstOut.buf
        = ((demoBurstOut.mainTr ++ demoBurstOut.collTr).filter
            (fun t => t.acked)).map RdTick.word ∧
     (1 ≤ demoBurstOut.buf.length ∨ demoBurstOut.final.m_bomb = true)) := by
  have h : wb_read_burst (demoDut (fun n => n == 1)) (initWb 0 false 0 0) 0 1 2
      = some demoBurstOut := by rfl
  exact ⟨h, C5_burst_read _ _ _ _ _ _ h⟩

/-! ### C2 -/

/-- A DUT that stalls on the second posting tick and acknowledges
early, driving the burst read into its `NO ACK, NO TIMEOUT` branch. -/
def demoDut2 : Dut Nat :=
  { step := fun n _ => n + 1
    stall := fun n => n == 1
    ack := fun n => n == 1 || n == 2
    rdata := fun _ => 7 }

/-- Counterexample to C2 as stated: this burst read returns with
`m_bomb` latched although its final `errcount` is 2, far below both
`BOMBCOUNT` and `BOMBCOUNT * len`: the flag was latched by the
`NO ACK, NO TIMEOUT` branch (acknowledges outpaced the accepted
posts), not by a tick-budget overrun, refuting
`set to true exactly when some bus primitive exceeds its tick
budget`. -/
theorem C2_counterexample :
    ((wb_read_burst demoDut2 (initWb 0 false 0 0) 0 2 1).map fun o =>
        (o.final.m_bomb, o.errFinal)) = some (true, 2) ∧
    (initWb (0 : Nat) false 0 0).m_bomb = false ∧
    ¬ BOMBCOUNT * 2 ≤ 2 ∧ ¬ BOMBCOUNT ≤ 2 :=
  ⟨rfl, rfl, by decide, by decide⟩

/-- One primitive preserves a latched bomb flag. -/
theorem applyBusOp_bomb_mono (d : Dut σ) (fuel : Nat) (op : BusOp)
    (t t2 : FlashTb σ) (h : applyBusOp d fuel op t = some t2)
    (hb : t.wb.m_bomb = true) : t2.wb.m_bomb = true := by
  cases op with
  | rd a =>
    simp only [applyBusOp, Option.map_eq_some'] at h
    obtain ⟨o, ho, rfl⟩ := h
    show o.final.m_bomb = true
    rw [wb_read_bomb _ _ _ _ _ ho, hb]
    rfl
  | ctrlRd a =>
    simp only [applyBusOp, Option.map_eq_some'] at h
    obtain ⟨o, ho, rfl⟩ := h
    show o.final.m_bomb = true
    rw [wb_ctrl_read_bomb _ _ _ _ _ ho, hb]
    rfl
  | wr a v =>
    simp only [applyBusOp, Option.map_eq_some'] at h
    obtain ⟨o, ho, rfl⟩ := h
    show o.final.m_bomb = true
    rw [wb_write_bomb _ _ _ _ _ _ ho, hb]
    rfl
  | ctrlWr a v =>
    simp only [applyBusOp, Option.map_eq_some'] at h
    obtain ⟨o, ho, rfl⟩ := h
    show o.final.m_bomb = true
    rw [wb_ctrl_write_bomb _ _ _ _ _ _ ho, hb]
    rfl
  | burstRd a len inc =>
    simp only [applyBusOp, Option.map_eq_some'] at h
    obtain ⟨o, ho, rfl⟩ := h
    show o.final.m_bomb = true
    rw [wb_read_burst_bomb _ _ _ _ _ _ ho, hb]
    rfl
  | burstWr a buf inc =>
    simp only [applyBusOp, Option.map_eq_some'] at h
    obtain ⟨o, ho, rfl⟩ := h
    show o.final.m_bomb = true
    rw [wb_write_burst_bomb _ _ _ _ _ _ _ ho, hb]
    rfl

/-- A latched bomb flag survives any further run of primitives. -/
theorem runBusOps_bomb_mono (d : Dut σ) (fuel : Nat) :
    ∀ (ops : List BusOp) (t t2 : FlashTb σ),
      runBusOps d fuel ops t = some t2 → t.wb.m_bomb = true →
      t2.wb.m_bomb = true := by
  intro ops
  induction ops with
  | nil =>
    intro t t2 h hb
    obtain rfl := Option.some_inj.mp h
    exact hb
  | cons op ops ih =>
    intro t t2 h hb
    simp only [runBusOps, Option.bind_eq_some] at h
    obtain ⟨t1, h1, h2⟩ := h
    exact ih t1 t2 h2 (applyBusOp_bomb_mono d fuel op t t1 h1 hb)

/-- C2 (amended): the transactor fault flag `WBFLASH_TB::m_bomb` starts
false at construction; each single-word primitive and the burst write
latch it exactly when their `errcount` budget is exhausted (their
`NO ACK, NO TIMEOUT` branch is dead); the burst read latches it when
its initial or length-scaled budget is exhausted **or** when its
response loops end without an acknowledge pending (the reachable
`NO ACK, NO TIMEOUT` branch, see the counterexample); and once latched
it is never cleared for the remainder of the run. -/
theorem C2_bomb_flag :
    (∀ (σ : Type) (dut : σ) (we0 : Bool) (a0 d0 : Nat),
        (initWb dut we0 a0 d0).m_bomb = false) ∧
    (∀ (σ : Type) (d : Dut σ) (s : WbState σ) (a fuel : Nat) (out : ReadOut σ),
        wb_read d s a fuel = some out →
        out.final.m_bomb = (s.m_bomb || decide (BOMBCOUNT ≤ out.errFinal))) ∧
    (∀ (σ : Type) (d : Dut σ) (s : WbState σ) (a fuel : Nat) (out : ReadOut σ),
        wb_ctrl_read d s a fuel = some out →
        out.final.m_bomb = (s.m_bomb || decide (BOMBCOUNT ≤ out.errFinal))) ∧
    (∀ (σ : Type) (d : Dut σ) (s : WbState σ) (a v fuel : Nat) (out : WriteOut σ),
        wb_write d s a v fuel = some out →
        out.final.m_bomb = (s.m_bomb || decide (BOMBCOUNT ≤ out.errFinal))) ∧
    (∀ (σ : Type) (d : Dut σ) (s : WbState σ) (a v fuel : Nat) (out : WriteOut σ),
        wb_ctrl_write d s a v fuel = some out →
        out.final.m_bomb = (s.m_bomb || decide (BOMBCOUNT ≤ out.errFinal))) ∧
    (∀ (σ : Type) (d : Dut σ) (s : WbState σ) (a : Nat) (buf : List Nat)
        (inc fuel : Nat) (out : BurstWriteOut σ),
        wb_write_burst d s a buf inc fuel = some out →
        out.final.m_bomb = (s.m_bomb || decide (BOMBCOUNT ≤ out.errFinal))) ∧
    (∀ (σ : Type) (d : Dut σ) (s : WbState σ) (a len inc : Nat) (out : BurstReadOut σ),
        wb_read_burst d s a len inc = some out →
        out.final.m_bomb =
          (s.m_bomb ||
           decide ((if out.early = true then BOMBCOUNT else BOMBCOUNT * len) ≤ out.errFinal) ||
           out.noAckEnd)) ∧
    (∀ (σ : Type) (d : Dut σ) (fuel : Nat) (ops : List BusOp) (t t2 : FlashTb σ),
        runBusOps d fuel ops t = some t2 → t.wb.m_bomb = true →
        t2.wb.m_bomb = true) :=
  ⟨fun _ _ _ _ _ => rfl,
   fun _ d s a fuel out h => wb_read_bomb d s a fuel out h,
   fun _ d s a fuel out h => wb_ctrl_read_bomb d s a fuel out h,
   fun _ d s a v fuel out h => wb_write_bomb d s a v fuel out h,
   fun _ d s a v fuel out h => wb_ctrl_write_bomb d s a v fuel out h,
   fun _ d s a buf inc fuel out h => wb_write_burst_bomb d s a buf inc fuel out h,
   fun _ d s a len inc out h => wb_read_burst_bomb d s a len inc out h,
   fun _ d fuel ops t t2 h hb => runBusOps_bomb_mono d fuel ops t t2 h hb⟩

/-- A subclass object whose inherited bomb flag is already latched. -/
def demoTbBombed : FlashTb Nat :=
  { wb := { initWb 0 false 0 0 with m_bomb := true }, m_bomb := false }

/-- Result of one further read on the already-bombed object. -/
def demoTb2 : FlashTb Nat :=
  (runBusOps (demoDut (fun n => n == 1)) 4 [BusOp.rd 0] demoTbBombed).getD demoTbBombed

/-- Witness for C2: the constructor leaves the flag false, the
single-read formula holds on the concrete run, and a latched flag
survives a further primitive. -/
theorem C2_witness :
    (initWb (0 : Nat) false 0 0).m_bomb = false ∧
    demoRdOut.final.m_bomb
      = ((initWb (0 : Nat) false 0 0).m_bomb || decide (BOMBCOUNT ≤ demoRdOut.errFinal)) ∧
    demoTb2.wb.m_bomb = true := by
  have h1 : wb_read (demoDut (fun n => n == 1)) (initWb 0 false 0 0) 0 4
      = some demoRdOut := by rfl
  have h2 : runBusOps (demoDut (fun n => n == 1)) 4 [BusOp.rd 0] demoTbBombed
      = some demoTb2 := by rfl
  exact ⟨C2_bomb_flag.1 Nat 0 false 0 0,
         C2_bomb_flag.2.1 Nat _ _ _ _ _ h1,
         C2_bomb_flag.2.2.2.2.2.2.2 Nat _ 4 _ _ _ h2 rfl⟩

/-! ### C3 -/

/-- The shadow member is untouched by one primitive. -/
theorem applyBusOp_bombed (d : Dut σ) (fuel : Nat) (op : BusOp)
    (t t2 : FlashTb σ) (h : applyBusOp d fuel op t = some t2) :
    t2.m_bomb = t.m_bomb := by
  cases op <;>
    · simp only [applyBusOp, Option.map_eq_some'] at h
      obtain ⟨o, ho, rfl⟩ := h
      rfl

/-- C3: each flash testbench subclass declares its own `m_bomb`,
shadowing the public `WBFLASH_TB::m_bomb`; it is never written by any
operation (construction leaves it at its indeterminate value `g`), and
`bombed()` returns that shadow, so a timeout latched in the inherited
flag by a bus primitive is never observable through `bombed()`: over
any run of primitives, `bombed` keeps returning the construction-time
garbage value. -/
theorem C3_bombed_shadow :
    (∀ (σ : Type) (dut : σ) (g we0 : Bool) (a0 d0 : Nat),
        bombed (mkFlashTb dut g we0 a0 d0) = g ∧
        (mkFlashTb dut g we0 a0 d0).wb.m_bomb = false) ∧
    (∀ (σ : Type) (d : Dut σ) (fuel : Nat) (ops : List BusOp) (t t2 : FlashTb σ),
        runBusOps d fuel ops t = some t2 → bombed t2 = bombed t) := by
  refine ⟨fun _ _ _ _ _ _ => ⟨rfl, rfl⟩, fun σ d fuel ops => ?_⟩
  induction ops with
  | nil =>
    intro t t2 h
    obtain rfl := Option.some_inj.mp h
    rfl
  | cons op ops ih =>
    intro t t2 h
    simp only [runBusOps, Option.bind_eq_some] at h
    obtain ⟨t1, h1, h2⟩ := h
    rw [ih t1 t2 h2]
    exact applyBusOp_bombed d fuel op t t1 h1

/-- The run of the C3 witness: a burst read that latches the inherited
bomb flag on a freshly constructed subclass object. -/
def demoTb3 : FlashTb Nat :=
  (runBusOps demoDut2 4 [BusOp.burstRd 0 2 1] (mkFlashTb 0 false false 0 0)).getD
    (mkFlashTb 0 false false 0 0)

/-- Witness for C3: the run latches the inherited `m_bomb` (it is true
afterwards), yet `bombed()` still returns the construction-time value
`false`. -/
theorem C3_witness :
    runBusOps demoDut2 4 [BusOp.burstRd 0 2 1] (mkFlashTb 0 false false 0 0)
        = some demoTb3 ∧
    bombed demoTb3 = bombed (mkFlashTb 0 false false 0 0) ∧
    demoTb3.wb.m_bomb = true ∧
    bombed demoTb3 = false := by
  have h : runBusOps demoDut2 4 [BusOp.burstRd 0 2 1] (mkFlashTb 0 false false 0 0)
      = some demoTb3 := by rfl
  exact ⟨h, C3_bombed_shadow.2 Nat demoDut2 4 _ _ _ h, rfl, rfl⟩


/-- Output of a concrete burst write whose single acknowledge arrives
one tick late, so the drain loop runs one strobed tick. -/
def demoBwOut : BurstWriteOut Nat :=
  (wb_write_burst (demoDut (fun n => n == 2)) (initWb 0 false 0 0) 0 [5] 1 4).getD
    { final := initWb 0 false 0 0, nacks := 0, drainTr := [], errFinal := 0, postDut := 0 }

/-- Witness for C10: the drain trace of the concrete burst write is
nonempty and every entry was driven with cycle and data strobe
asserted. -/
theorem C10_witness :
    wb_write_burst (demoDut (fun n => n == 2)) (initWb 0 false 0 0) 0 [5] 1 4
        = some demoBwOut ∧
    (∀ t ∈ demoBwOut.drainTr, t.cyc = true ∧ t.dstb = true) ∧
    demoBwOut.drainTr ≠ [] := by
  have h : wb_write_burst (demoDut (fun n => n == 2)) (initWb 0 false 0 0) 0 [5] 1 4
      = some demoBwOut := by rfl
  refine ⟨h, C10_burst_write_drain_strobe _ _ _ _ _ _ _ h, by decide⟩

/-! ### C9 -/

/-- Big-endian byte insertion: shifting left by a byte and ORing in a
value below 256 is exact base-256 positional arithmetic. -/
theorem shiftOr_eq (r x : Nat) (hx : x < 256) : (r <<< 8) ||| x = 256 * r + x := by
  have h := Nat.mul_add_lt_is_or (show x < 2 ^ 8 by omega) r
  rw [Nat.shiftLeft_eq]
  calc r * 2 ^ 8 ||| x = 2 ^ 8 * r ||| x := by rw [Nat.mul_comm]
    _ = 2 ^ 8 * r + x := h.symm
    _ = 256 * r + x := by norm_num

/-- The low byte mask keeps a value below 256. -/
theorem masked_lt (y : Nat) : y &&& 0x0ff < 256 :=
  lt_of_le_of_lt Nat.and_le_right (by norm_num)

/-- A word assembled from four bytes fits in 32 bits. -/
theorem pack_lt (a b c d : Nat) (ha : a < 256) (hb : b < 256) (hc : c < 256)
    (hd : d < 256) : 256 * (256 * (256 * a + b) + c) + d < 0x100000000 := by
  omega

/-- C9: in both variants, `flreadid()` writes the READ-ID opcode, then
exactly four dummy configuration-port writes each paired with a
configuration-port read, and terminates the frame with a de-select
before returning; the four returned bytes (the low byte of each read)
are packed big-endian, the first byte received becoming the most
significant byte of the returned 32-bit word. -/
theorem C9_flreadid :
    (∀ (τ : Type) (c : CfgPort τ) (st : CfgSt τ),
      (Spix.flreadid c st).2.writes = st.writes ++ [F_READID, 0, 0, 0, 0, F_END] ∧
      ∃ v0 v1 v2 v3,
        (Spix.flreadid c st).2.reads = st.reads ++ [v0, v1, v2, v3] ∧
        (Spix.flreadid c st).1 =
          (v0 &&& 0x0ff) * 0x1000000 + (v1 &&& 0x0ff) * 0x10000 +
          (v2 &&& 0x0ff) * 0x100 + (v3 &&& 0x0ff) ∧
        (Spix.flreadid c st).1 < 0x100000000) ∧
    (∀ (τ : Type) (c : CfgPort τ) (st : CfgSt τ),
      (Dualflex.flreadid c st).2.writes
          = st.writes ++ [F_READID, CFG_USERMODE, CFG_USERMODE, CFG_USERMODE,
                          CFG_USERMODE, F_END] ∧
      ∃ v0 v1 v2 v3,
        (Dualflex.flreadid c st).2.reads = st.reads ++ [v0, v1, v2, v3] ∧
        (Dualflex.flreadid c st).1 =
          (v0 &&& 0x0ff) * 0x1000000 + (v1 &&& 0x0ff) * 0x10000 +
          (v2 &&& 0x0ff) * 0x100 + (v3 &&& 0x0ff) ∧
        (Dualflex.flreadid c st).1 < 0x100000000) := by
  constructor
  · intro τ c st
    refine ⟨by simp [Spix.flreadid, cfg_write, cfg_read], _, _, _, _,
      by simp [Spix.flreadid, cfg_write, cfg_read]; exact ⟨rfl, rfl, rfl, rfl⟩, ?_, ?_⟩
    · show (((((c.rvalue (c.wstep (c.wstep st.port F_READID) 0) &&& 0x0ff) <<< 8 ||| (c.rvalue (c.wstep (c.rstep (c.wstep (c.wstep st.port F_READID) 0)) 0) &&& 0x0ff)) <<< 8 ||| (c.rvalue (c.wstep (c.rstep (c.wstep (c.rstep (c.wstep (c.wstep st.port F_READID) 0)) 0)) 0) &&& 0x0ff)) <<< 8 ||| (c.rvalue (c.wstep (c.rstep (c.wstep (c.rstep (c.wstep (c.rstep (c.wstep (c.wstep st.port F_READID) 0)) 0)) 0)) 0) &&& 0x0ff))) = _
      rw [shiftOr_eq _ _ (masked_lt _), shiftOr_eq _ _ (masked_lt _),
        shiftOr_eq _ _ (masked_lt _)]
      ring
    · show (((((c.rvalue (c.wstep (c.wstep st.port F_READID) 0) &&& 0x0ff) <<< 8 ||| (c.rvalue (c.wstep (c.rstep (c.wstep (c.wstep st.port F_READID) 0)) 0) &&& 0x0ff)) <<< 8 ||| (c.rvalue (c.wstep (c.rstep (c.wstep (c.rstep (c.wstep (c.wstep st.port F_READID) 0)) 0)) 0) &&& 0x0ff)) <<< 8 ||| (c.rvalue (c.wstep (c.rstep (c.wstep (c.rstep (c.wstep (c.rstep (c.wstep (c.wstep st.port F_READID) 0)) 0)) 0)) 0) &&& 0x0ff))) < 0x100000000
      rw [shiftOr_eq _ _ (masked_lt _), shiftOr_eq _ _ (masked_lt _),
        shiftOr_eq _ _ (masked_lt _)]
      exact pack_lt _ _ _ _ (masked_lt _) (masked_lt _) (masked_lt _) (masked_lt _)
  · intro τ c st
    refine ⟨by simp [Dualflex.flreadid, cfg_write, cfg_read], _, _, _, _,
      by simp [Dualflex.flreadid, cfg_write, cfg_read]; exact ⟨rfl, rfl, rfl, rfl⟩, ?_, ?_⟩
    · show (((((c.rvalue (c.wstep (c.wstep st.port F_READID) CFG_USERMODE) &&& 0x0ff) <<< 8 ||| (c.rvalue (c.wstep (c.rstep (c.wstep (c.wstep st.port F_READID) CFG_USERMODE)) CFG_USERMODE) &&& 0x0ff)) <<< 8 ||| (c.rvalue (c.wstep (c.rstep (c.wstep (c.rstep (c.wstep (c.wstep st.port F_READID) CFG_USERMODE)) CFG_USERMODE)) CFG_USERMODE) &&& 0x0ff)) <<< 8 ||| (c.rvalue (c.wstep (c.rstep (c.wstep (c.rstep (c.wstep (c.rstep (c.wstep (c.wstep st.port F_READID) CFG_USERMODE)) CFG_USERMODE)) CFG_USERMODE)) CFG_USERMODE) &&& 0x0ff))) = _
      rw [shiftOr_eq _ _ (masked_lt _), shiftOr_eq _ _ (masked_lt _),
        shiftOr_eq _ _ (masked_lt _)]
      ring
    · show (((((c.rvalue (c.wstep (c.wstep st.port F_READID) CFG_USERMODE) &&& 0x0ff) <<< 8 ||| (c.rvalue (c.wstep (c.rstep (c.wstep (c.wstep st.port F_READID) CFG_USERMODE)) CFG_USERMODE) &&& 0x0ff)) <<< 8 ||| (c.rvalue (c.wstep (c.rstep (c.wstep (c.rstep (c.wstep (c.wstep st.port F_READID) CFG_USERMODE)) CFG_USERMODE)) CFG_USERMODE) &&& 0x0ff)) <<< 8 ||| (c.rvalue (c.wstep (c.rstep (c.wstep (c.rstep (c.wstep (c.rstep (c.wstep (c.wstep st.port F_READID) CFG_USERMODE)) CFG_USERMODE)) CFG_USERMODE)) CFG_USERMODE) &&& 0x0ff))) < 0x100000000
      rw [shiftOr_eq _ _ (masked_lt _), shiftOr_eq _ _ (masked_lt _),
        shiftOr_eq _ _ (masked_lt _)]
      exact pack_lt _ _ _ _ (masked_lt _) (masked_lt _) (masked_lt _) (masked_lt _)


/-! ### C6 -/

/-- The status poll writes its dummy word once per poll, at least one
poll always happens, and nothing else is written. -/
theorem flwaitPoll_writes {c : CfgPort τ} {dummy : Nat} :
    ∀ fuel (st : CfgSt τ) q, flwaitPoll c dummy fuel st = some q →
      1 ≤ q.2 ∧ q.1.writes = st.writes ++ List.replicate q.2 dummy := by
  intro fuel
  induction fuel with
  | zero => intro st q h; exact Option.noConfusion h
  | succ f ih =>
    intro st q h
    unfold flwaitPoll at h
    dsimp only at h
    split at h
    · simp only [Option.map_eq_some'] at h
      obtain ⟨q0, h0, rfl⟩ := h
      obtain ⟨h1, h2⟩ := ih _ _ h0
      refine ⟨by show 1 ≤ q0.2 + 1; omega, ?_⟩
      show q0.1.writes = st.writes ++ List.replicate (q0.2 + 1) dummy
      rw [h2]
      show st.writes ++ [dummy] ++ List.replicate q0.2 dummy = _
      rw [List.append_assoc, List.replicate_succ]
      rfl
    · injection h with h
      subst h
      exact ⟨by show 1 ≤ 1; omega, rfl⟩

/-- From the source: `SPIXPRESS_TB::flwait` (single-SPI variant) writes the RDSR
opcode, one dummy zero word per poll, and a closing de-select. -/
theorem spix_flwait_writes {c : CfgPort τ} (fuel : Nat) (st : CfgSt τ)
    (q : CfgSt τ × Nat) (h : Spix.flwait c fuel st = some q) :
    1 ≤ q.2 ∧ q.1.writes
      = st.writes ++ ([F_RDSR] ++ List.replicate q.2 0 ++ [F_END]) := by
  unfold Spix.flwait at h
  simp only [Option.map_eq_some'] at h
  obtain ⟨q0, h0, rfl⟩ := h
  obtain ⟨h1, h2⟩ := flwaitPoll_writes _ _ _ h0
  refine ⟨h1, ?_⟩
  show q0.1.writes ++ [F_END] = _
  rw [h2]
  show st.writes ++ [F_RDSR] ++ List.replicate q0.2 0 ++ [F_END] = _
  simp [List.append_assoc]

/-- The dual-variant `flwait`, with dummy word `CFG_USERMODE`. -/
theorem dual_flwait_writes {c : CfgPort τ} (fuel : Nat) (st : CfgSt τ)
    (q : CfgSt τ × Nat) (h : Dualflex.flwait c fuel st = some q) :
    1 ≤ q.2 ∧ q.1.writes
      = st.writes ++ ([F_RDSR] ++ List.replicate q.2 CFG_USERMODE ++ [F_END]) := by
  unfold Dualflex.flwait at h
  simp only [Option.map_eq_some'] at h
  obtain ⟨q0, h0, rfl⟩ := h
  obtain ⟨h1, h2⟩ := flwaitPoll_writes _ _ _ h0
  refine ⟨h1, ?_⟩
  show q0.1.writes ++ [F_END] = _
  rw [h2]
  show st.writes ++ [F_RDSR] ++ List.replicate q0.2 CFG_USERMODE ++ [F_END] = _
  simp [List.append_assoc]

/-- C6 (amended): in the dual-I/O variant, `flerase(sectoraddr)`
writes, in order: the `take_offline` frame, a de-select, WREN, a
de-select, the SE opcode followed by exactly three address bytes most
significant first (each carried in the low byte of a
`CFG_USERMODE`-tagged word), a de-select, the busy poll (RDSR, one
dummy word per poll until the busy bit clears, de-select), and finally
the `place_online` frame.  The SPI-only variant issues the same WREN /
SE / address / poll sequence but with **no** `take_offline` /
`place_online` bracketing (see the counterexample). -/
theorem C6_flerase :
    (∀ (τ : Type) (c : CfgPort τ) (fuel : Nat) (st : CfgSt τ) (sectoraddr : Nat)
        (st2 : CfgSt τ), Dualflex.flerase c fuel st sectoraddr = some st2 →
      ∃ n, 1 ≤ n ∧
        st2.writes = st.writes ++
          ([F_END, F_RESET, F_RESET, F_END] ++
           [F_END, F_WREN, F_END] ++
           [F_SE, CFG_USERMODE ||| ((sectoraddr >>> 16) &&& 0x0ff),
            CFG_USERMODE ||| ((sectoraddr >>> 8) &&& 0x0ff),
            CFG_USERMODE ||| (sectoraddr &&& 0x0ff), F_END] ++
           ([F_RDSR] ++ List.replicate n CFG_USERMODE ++ [F_END]) ++
           [Dualflex.DUAL_IO_READ,
            CFG_USERMODE ||| CFG_DSPEED ||| CFG_WEDIR,
            CFG_USERMODE ||| CFG_DSPEED ||| CFG_WEDIR,
            CFG_USERMODE ||| CFG_DSPEED ||| CFG_WEDIR,
            CFG_USERMODE ||| CFG_DSPEED ||| CFG_WEDIR ||| 0xa0,
            CFG_USERMODE ||| CFG_DSPEED, 0])) ∧
    (∀ (τ : Type) (c : CfgPort τ) (fuel : Nat) (st : CfgSt τ) (sectoraddr : Nat)
        (st2 : CfgSt τ), Spix.flerase c fuel st sectoraddr = some st2 →
      ∃ n, 1 ≤ n ∧
        st2.writes = st.writes ++
          ([F_END, F_WREN, F_END] ++
           [F_SE, (sectoraddr >>> 16) &&& 0x0ff, (sectoraddr >>> 8) &&& 0x0ff,
            sectoraddr &&& 0x0ff, F_END] ++
           ([F_RDSR] ++ List.replicate n 0 ++ [F_END]))) := by
  constructor
  · intro τ c fuel st sectoraddr st2 h
    unfold Dualflex.flerase at h
    simp only [Option.map_eq_some'] at h
    obtain ⟨q, hq, rfl⟩ := h
    obtain ⟨h1, h2⟩ := dual_flwait_writes _ _ _ hq
    refine ⟨q.2, h1, ?_⟩
    simp only [Dualflex.place_online, cfg_write]
    rw [h2]
    simp [Dualflex.take_offline, cfg_write, List.append_assoc]
  · intro τ c fuel st sectoraddr st2 h
    unfold Spix.flerase at h
    simp only [Option.map_eq_some'] at h
    obtain ⟨q, hq, rfl⟩ := h
    obtain ⟨h1, h2⟩ := spix_flwait_writes _ _ _ hq
    refine ⟨q.2, h1, ?_⟩
    rw [h2]
    simp [cfg_write, List.append_assoc]


/-- A configuration port whose reads always return zero (device never
busy). -/
def demoCfg : CfgPort Unit :=
  { wstep := fun _ _ => (), rvalue := fun _ => 0, rstep := fun _ => () }

/-- A fresh configuration-port session. -/
def cfgSt0 : CfgSt Unit := { port := (), writes := [], reads := [] }

/-- Counterexample to C6 as stated: the SPI-only `flerase` opens its
frame with a bare de-select followed immediately by WREN — not with the
`take_offline` frame `[F_END, F_RESET, F_RESET, F_END]` the claim
requires for every `flerase` — and (as the second word shows,
`F_WREN ≠ F_RESET`) no `take_offline`/`place_online` bracketing is
issued at all in that variant. -/
theorem C6_counterexample :
    ((Spix.flerase demoCfg 4 cfgSt0 0x10000).map fun st2 => st2.writes.take 2)
        = some [F_END, F_WREN] ∧
    ¬ F_WREN = F_RESET :=
  ⟨rfl, by decide⟩

/-- Erase frame of the dual variant on the never-busy port. -/
def demoDualErase : CfgSt Unit :=
  (Dualflex.flerase demoCfg 4 cfgSt0 0x20000).getD cfgSt0

/-- Erase frame of the SPI-only variant on the never-busy port. -/
def demoSpixErase : CfgSt Unit :=
  (Spix.flerase demoCfg 4 cfgSt0 0x20000).getD cfgSt0

/-- Witness for C6 at the concrete never-busy port and sector address
`0x20000`. -/
theorem C6_witness :
    Dualflex.flerase demoCfg 4 cfgSt0 0x20000 = some demoDualErase ∧
    Spix.flerase demoCfg 4 cfgSt0 0x20000 = some demoSpixErase ∧
    (∃ n, 1 ≤ n ∧
      demoDualErase.writes = cfgSt0.writes ++
        ([F_END, F_RESET, F_RESET, F_END] ++
         [F_END, F_WREN, F_END] ++
         [F_SE, CFG_USERMODE ||| ((0x20000 >>> 16) &&& 0x0ff),
          CFG_USERMODE ||| ((0x20000 >>> 8) &&& 0x0ff),
          CFG_USERMODE ||| (0x20000 &&& 0x0ff), F_END] ++
         ([F_RDSR] ++ List.replicate n CFG_USERMODE ++ [F_END]) ++
         [Dualflex.DUAL_IO_READ,
          CFG_USERMODE ||| CFG_DSPEED ||| CFG_WEDIR,
          CFG_USERMODE ||| CFG_DSPEED ||| CFG_WEDIR,
          CFG_USERMODE ||| CFG_DSPEED ||| CFG_WEDIR,
          CFG_USERMODE ||| CFG_DSPEED ||| CFG_WEDIR ||| 0xa0,
          CFG_USERMODE ||| CFG_DSPEED, 0])) ∧
    (∃ n, 1 ≤ n ∧
      demoSpixErase.writes = cfgSt0.writes ++
        ([F_END, F_WREN, F_END] ++
         [F_SE, (0x20000 >>> 16) &&& 0x0ff, (0x20000 >>> 8) &&& 0x0ff,
          0x20000 &&& 0x0ff, F_END] ++
         ([F_RDSR] ++ List.replicate n 0 ++ [F_END]))) := by
  have h1 : Dualflex.flerase demoCfg 4 cfgSt0 0x20000 = some demoDualErase := by rfl
  have h2 : Spix.flerase demoCfg 4 cfgSt0 0x20000 = some demoSpixErase := by rfl
  exact ⟨h1, h2, C6_flerase.1 Unit demoCfg 4 cfgSt0 0x20000 _ h1,
         C6_flerase.2 Unit demoCfg 4 cfgSt0 0x20000 _ h2⟩


/-! ### C8 -/

/-- C8 (amended): every run of the `spixpress_tb.cpp` scenario driver
ends in exactly one of three ways: the full-pass exit, which prints the
literal `SUCCESS!!` line and exits with `EXIT_SUCCESS = 0`; the
`test_failure` exit, which prints `FAIL-HERE` and `TEST FAILED` and
exits with the non-zero `EXIT_FAILURE`; or a process abort from a
failed C `assert` (the status-register, device-id and `fread`
cross-checks), which prints neither marker line and performs no normal
exit (see the counterexample for a failed check that does not print
`TEST FAILED`). -/
theorem C8_exit_contract (env : ScenarioEnv) :
    spixpressMain env = MainOutcome.exited ["SUCCESS!!"] EXIT_SUCCESS ∨
    spixpressMain env = MainOutcome.exited ["FAIL-HERE", "TEST FAILED"] EXIT_FAILURE ∨
    spixpressMain env = MainOutcome.aborted := by
  have hP : ∀ (c : Prop) (inst : Decidable c) (a b : MainOutcome),
      (a = MainOutcome.exited ["SUCCESS!!"] EXIT_SUCCESS ∨
       a = MainOutcome.exited ["FAIL-HERE", "TEST FAILED"] EXIT_FAILURE ∨
       a = MainOutcome.aborted) →
      (b = MainOutcome.exited ["SUCCESS!!"] EXIT_SUCCESS ∨
       b = MainOutcome.exited ["FAIL-HERE", "TEST FAILED"] EXIT_FAILURE ∨
       b = MainOutcome.aborted) →
      ((@ite _ c inst a b) = MainOutcome.exited ["SUCCESS!!"] EXIT_SUCCESS ∨
       (@ite _ c inst a b) = MainOutcome.exited ["FAIL-HERE", "TEST FAILED"] EXIT_FAILURE ∨
       (@ite _ c inst a b) = MainOutcome.aborted) := by
    intro c inst a b ha hb
    split
    · exact ha
    · exact hb
  unfold spixpressMain
  repeat
    first
      | refine hP _ _ _ _ ?_ ?_
      | exact Or.inl rfl
      | exact Or.inr (Or.inl rfl)
      | exact Or.inr (Or.inr rfl)

/-- An environment in which every comparison up to the status-register
cross-check passes, but the status register reads 0 instead of the
expected `0x1c`. -/
def envAbort : ScenarioEnv :=
  { read0 := 0
    bombedVal := false
    flash0 := fun _ => 5
    readw0 := fun _ => 5
    vbuf := fun _ => 5
    status := 0
    idreg := 0
    devid := 0
    flash1 := fun _ => 0xffffffff
    readw1 := fun _ => 0xffffffff
    read2 := 0x12345678
    freadOk := true
    pageWord := fun _ _ => 0
    flashPage := fun _ _ => 0 }

set_option maxRecDepth 100000 in
/-- Counterexample to C8 as stated: with the status register reading 0
(a failed check / data mismatch), the run does **not** print a
`TEST FAILED` line and exit non-zero — it aborts in the C `assert`
without reaching either exit path. -/
theorem C8_counterexample :
    spixpressMain envAbort = MainOutcome.aborted ∧
    ¬ MainOutcome.aborted
        = MainOutcome.exited ["FAIL-HERE", "TEST FAILED"] EXIT_FAILURE :=
  ⟨by rfl, by decide⟩

end Qspiflash
